import Mathlib

/-!
Shallow embedding of the rails MVP back-end (the accounts and the users
services), translated from the Rust sources under mvp/api.  Record fields,
control flow and literal strings follow the source functions named in each
doc comment.  Database tables are lists of rows, timestamps are naturals,
and each fallible operation returns an `Except` over the service's error
enum.
-/

namespace Rails

/-- Opaque 128-bit identifiers (UUIDs) are modelled as naturals. -/
abbrev Uuid := Nat

/-- UTC timestamps are modelled as naturals. -/
abbrev Time := Nat

/-- Model of Rust `str::trim`: strip leading and trailing whitespace. -/
def trim_string (s : String) : String :=
  String.mk (((s.data.dropWhile Char.isWhitespace).reverse.dropWhile
    Char.isWhitespace).reverse)

/-- Model of Rust `str::to_lowercase` on the ASCII header values used
here: lower-case each character. -/
def lower_string (s : String) : String :=
  String.mk (s.data.map Char.toLower)

/-- Model of Rust `str::starts_with` on character lists. -/
def starts_with : List Char → List Char → Bool
  | [], _ => true
  | _ :: _, [] => false
  | p :: ps, c :: cs => p == c && starts_with ps cs

/-! ### Environment extraction (accounts/src/handlers/accounts.rs) -/

/-- Translation of `extract_environment`: read the `X-Environment` header,
trim and lower-case it, keep it only when it equals `sandbox` or
`production`, and default to `sandbox` otherwise (also when the header is
absent). -/
def extract_environment (header : Option String) : String :=
  match header with
  | none => "sandbox"
  | some v =>
    let s := lower_string (trim_string v)
    if s == "sandbox" || s == "production" then s else "sandbox"

/-! ### Luhn account numbers (accounts/src/utils/account_number.rs)

`generate_account_number` draws random digits and appends a Luhn mod-10
check digit (via the `luhn3` crate's `decimal::checksum`), retrying up to
10 times against a storage-existence check; `validate_account_number`
checks all-digits, length 10..16 and the Luhn checksum (the crate's
`decimal::valid`). -/

/-- One step of the Luhn weighting: double the digit and subtract 9 when
the result exceeds 9. -/
def luhn_double (d : Nat) : Nat :=
  if 2 * d > 9 then 2 * d - 9 else 2 * d

/-- Luhn weighted sum of a digit list given least-significant digit first;
the flag says whether the current digit is doubled. -/
def luhn_sum : List Nat → Bool → Nat
  | [], _ => 0
  | d :: rest, dbl => (if dbl then luhn_double d else d) + luhn_sum rest (!dbl)

/-- The `luhn3` `decimal::valid` check on a digit list (most-significant
first): the weighted sum with the rightmost digit undoubled is divisible
by 10. -/
def luhn_valid (digits : List Nat) : Bool :=
  luhn_sum digits.reverse false % 10 == 0

/-- The `luhn3` `decimal::checksum` digit for a payload (most-significant
first): the digit that makes `payload ++ [digit]` Luhn-valid. -/
def luhn_checksum (payload : List Nat) : Nat :=
  (10 - luhn_sum payload.reverse true % 10) % 10

/-- Digit value of an ASCII digit character. -/
def char_digit (c : Char) : Nat := c.toNat - 48

/-- ASCII digit character of a digit value. -/
def digit_char (d : Nat) : Char := Char.ofNat (48 + d)

/-- Render a digit list as the account-number string. -/
def digits_to_string (ds : List Nat) : String :=
  String.mk (ds.map digit_char)

/-- Translation of `validate_account_number`: all characters must be ASCII
digits, the length must lie in 10..16, and the Luhn checksum must hold. -/
def validate_account_number (account_number : String) : Bool :=
  if !(account_number.data.all (fun c => c.isDigit)) then false
  else if account_number.length < 10 || account_number.length > 16 then false
  else luhn_valid (account_number.data.map char_digit)

/-- The candidate built inside one iteration of `generate_account_number`:
the first random digit (drawn from 1..=9), the remaining `base_length - 1`
random digits (drawn from 0..=9), and the appended Luhn check digit. -/
def make_account_number (first_digit : Nat) (rest : List Nat) : String :=
  let base_number := first_digit :: rest
  digits_to_string (base_number ++ [luhn_checksum base_number])

/-- The retry loop of `generate_account_number` over the successive random
draws, with the storage existence check `account_number_exists` abstracted
as a predicate.  A draw that is not yet present in storage is returned;
otherwise the loop retries. -/
def generate_account_number_loop
    (draws : List (Nat × List Nat))
    (account_number_exists : String → Bool) : Except String String :=
  match draws with
  | [] => .error "Failed to generate unique account number after multiple attempts"
  | (first_digit, rest) :: more =>
    let account_number := make_account_number first_digit rest
    if !(account_number_exists account_number) then .ok account_number
    else generate_account_number_loop more account_number_exists

/-- Translation of `generate_account_number`: the requested length is
clamped to 10..16 (`length.max(10).min(16)`), and the loop runs for at
most `MAX_RETRIES = 10` draws. -/
def generate_account_number
    (_length : Nat)
    (draws : List (Nat × List Nat))
    (account_number_exists : String → Bool) : Except String String :=
  generate_account_number_loop (draws.take 10) account_number_exists

/-- The ranges guaranteed by the `rand` calls inside
`generate_account_number` for a clamped length `len`: the first digit is
drawn from `1..=9` and the remaining `len - 2` base digits from `0..=9`. -/
def ValidDraw (length : Nat) (draw : Nat × List Nat) : Prop :=
  let len := Nat.min (Nat.max length 10) 16
  1 ≤ draw.1 ∧ draw.1 ≤ 9 ∧ draw.2.length = len - 2 ∧ ∀ d ∈ draw.2, d ≤ 9

instance (length : Nat) (draw : Nat × List Nat) : Decidable (ValidDraw length draw) := by
  unfold ValidDraw
  exact inferInstance

/-! ### Accounts-service data model

The money-movement pipeline (accounts/src/services/account_service.rs,
accounts/src/repositories/transaction_repository.rs,
accounts/src/ledger_grpc.rs).  The `transactions` table is a list of rows
plus a fresh-id counter, and the ledger RPC is parameterised by the remote
outcome. -/

/-- `TransactionKind` as read and written by the transaction repository. -/
inductive TransactionKind
  | deposit
  | withdraw
  | transfer
deriving DecidableEq, Repr

/-- `TransactionStatus` as read and written by the transaction repository. -/
inductive TransactionStatus
  | pending
  | posted
  | failed
deriving DecidableEq, Repr

/-- A row of the `transactions` table, with the columns selected and bound
by `TransactionRepository` (`row_to_transaction`). -/
structure Transaction where
  id : Uuid
  organization_id : Uuid
  from_account_id : Uuid
  to_account_id : Uuid
  amount : Int
  currency : String
  transaction_kind : TransactionKind
  status : TransactionStatus
  failure_reason : Option String
  idempotency_key : String
  environment : Option String
  created_at : Time
  updated_at : Time
deriving DecidableEq, Repr

/-- The `transactions` table: its rows plus the generator of the next
fresh primary key. -/
structure TxStore where
  rows : List Transaction
  next_id : Uuid
deriving DecidableEq, Repr

/-- `AccountStatus` from accounts/src/models/account.rs. -/
inductive AccountStatus
  | active
  | suspended
  | closed
deriving DecidableEq, Repr

/-- An `accounts` row with the fields consumed by the money-movement
service, which treats `organization_id`, `environment`, `currency` and
`status` as optional columns. -/
structure Account where
  id : Uuid
  account_number : String
  organization_id : Option Uuid
  environment : Option String
  user_id : Uuid
  currency : Option String
  status : Option AccountStatus
deriving DecidableEq, Repr

/-- The accounts-service error enum (accounts/src/errors/app_error.rs). -/
inductive AppError
  | Database (msg : String)
  | NotFound (msg : String)
  | Validation (msg : String)
  | BusinessLogic (msg : String)
  | InsufficientFunds
  | AccountNotActive
  | InvalidAccountType
  | InvalidTransactionType
  | NotImplemented (msg : String)
  | Internal (msg : String)
deriving DecidableEq, Repr

/-- The display string of each error
(the `thiserror` attributes in app_error.rs), as produced by
`format!("{}", e)` at the settle step. -/
def AppError.message : AppError → String
  | .Database m => "Database error: " ++ m
  | .NotFound m => "Not found: " ++ m
  | .Validation m => "Validation error: " ++ m
  | .BusinessLogic m => "Business logic error: " ++ m
  | .InsufficientFunds => "Insufficient funds"
  | .AccountNotActive => "Account is not active"
  | .InvalidAccountType => "Invalid account type"
  | .InvalidTransactionType => "Invalid transaction type"
  | .NotImplemented m => "Not implemented: " ++ m
  | .Internal m => "Internal server error: " ++ m

/-- The HTTP status each error maps to in `IntoResponse for AppError`. -/
def AppError.status_code : AppError → Nat
  | .Database _ => 500
  | .NotFound _ => 404
  | .Validation _ => 400
  | .BusinessLogic _ => 400
  | .InsufficientFunds => 400
  | .AccountNotActive => 400
  | .InvalidAccountType => 400
  | .InvalidTransactionType => 400
  | .NotImplemented _ => 501
  | .Internal _ => 500

/-- The SQL `COALESCE(environment, '')` applied by the unique index and by
the lookup inside `create_or_get_by_idempotency`. -/
def coalesce_env : Option String → String
  | some e => e
  | none => ""

/-- The `WHERE` clause of the `existing` CTE in
`create_or_get_by_idempotency`: equality of organisation, coalesced
environment and idempotency key. -/
def matches_triple (t : Transaction) (organization_id : Uuid)
    (environment : Option String) (idempotency_key : String) : Bool :=
  t.organization_id == organization_id
    && coalesce_env t.environment == coalesce_env environment
    && t.idempotency_key == idempotency_key

/-- Translation of `TransactionRepository::create_or_get_by_idempotency`
(the single CTE statement): if a row matching
`(organization_id, COALESCE(environment, ''), idempotency_key)` exists it
is returned unchanged; otherwise one new row with status `pending` and no
failure reason is inserted and returned. -/
def create_or_get_by_idempotency
    (store : TxStore) (now : Time)
    (organization_id from_account_id to_account_id : Uuid)
    (amount : Int) (currency : String)
    (transaction_kind : TransactionKind)
    (idempotency_key : String)
    (environment : Option String) : TxStore × Transaction :=
  match store.rows.find?
      (fun t => matches_triple t organization_id environment idempotency_key) with
  | some t => (store, t)
  | none =>
    let t : Transaction :=
      { id := store.next_id
        organization_id := organization_id
        from_account_id := from_account_id
        to_account_id := to_account_id
        amount := amount
        currency := currency
        transaction_kind := transaction_kind
        status := .pending
        failure_reason := none
        idempotency_key := idempotency_key
        environment := environment
        created_at := now
        updated_at := now }
    ({ rows := store.rows ++ [t], next_id := store.next_id + 1 }, t)

/-- Translation of `TransactionRepository::update_status`: the unguarded
`UPDATE transactions SET status, failure_reason, updated_at WHERE id = $1
RETURNING *`; `fetch_one` fails when no row has the id. -/
def update_status (store : TxStore) (now : Time) (id : Uuid)
    (status : TransactionStatus) (failure_reason : Option String) :
    Except AppError (TxStore × Transaction) :=
  let rows := store.rows.map (fun t =>
    if t.id == id then
      { t with status := status, failure_reason := failure_reason, updated_at := now }
    else t)
  match rows.find? (fun t => t.id == id) with
  | some t => .ok ({ store with rows := rows }, t)
  | none => .error (.Database "no rows returned by a query that expected to return at least one row")

/-- The possible remote outcomes of one ledger gRPC call, as distinguished
by `LedgerGrpc::post_transaction`: a response with a `status` string and a
`failure_reason`, a connect error, an expired request timeout, or a
request error. -/
inductive LedgerOutcome
  | response (status : String) (failure_reason : String)
  | connectError (msg : String)
  | timeoutExpired
  | requestError (msg : String)
deriving DecidableEq, Repr

/-- Translation of `LedgerGrpc::env_to_proto`: only `sandbox` and
`production` are accepted. -/
def env_to_proto (environment : String) : Except AppError Nat :=
  if environment == "sandbox" then .ok 0
  else if environment == "production" then .ok 1
  else .error (.Validation ("invalid environment for ledger gRPC: " ++ environment))

/-- Translation of `LedgerGrpc::post_transaction`: environment validation,
then the transport outcomes map to `Internal` errors and a received
response maps to `Ok` exactly when its status is `posted`, otherwise to a
`BusinessLogic` error carrying the remote failure reason. -/
def post_transaction (environment : String) (outcome : LedgerOutcome) :
    Except AppError Unit :=
  match env_to_proto environment with
  | .error e => .error e
  | .ok _ =>
    match outcome with
    | .connectError m => .error (.Internal ("ledger gRPC connect failed: " ++ m))
    | .timeoutExpired => .error (.Internal "ledger gRPC post timeout expired")
    | .requestError m => .error (.Internal ("ledger gRPC post failed: " ++ m))
    | .response status failure_reason =>
      if status == "posted" then .ok ()
      else .error (.BusinessLogic ("ledger post failed: " ++ failure_reason))

/-- The settle step shared verbatim by `deposit_with_idempotency`,
`withdraw_with_idempotency` and `transfer_with_idempotency`
(account_service.rs): on `Ok` the intent is updated to `posted` with no
failure reason; on any error it is updated to `pending` with the error's
display string as the failure reason, and no error is surfaced. -/
def settle_post_result (store : TxStore) (now : Time) (transaction_id : Uuid)
    (post_result : Except AppError Unit) :
    Except AppError (TxStore × Transaction) :=
  match post_result with
  | .ok () => update_status store now transaction_id .posted none
  | .error e => update_status store now transaction_id .pending (some e.message)

/-- Translation of `AccountService::deposit_with_idempotency`: validate the
idempotency key, load the account (`AccountRepository::find_by_id`),
require it active, resolve organisation, currency and environment, commit
the intent through the idempotency engine inside a short transaction, post
to the ledger, and settle.  The ledger call's remote outcome is the
`ledger` parameter; the correlation id only travels in RPC metadata and is
not modelled.  The call site passes the account's resolved environment to
the repository, matching the repository signature and the unique index. -/
def deposit_with_idempotency
    (accounts : List Account) (store : TxStore) (now : Time)
    (account_id : Uuid) (amount : Int) (idempotency_key : String)
    (ledger : LedgerOutcome) :
    Except AppError (TxStore × Account × Transaction) :=
  if trim_string idempotency_key == "" then
    .error (.Validation "Idempotency-Key header is required")
  else
    match accounts.find? (fun a => a.id == account_id) with
    | none => .error (.NotFound ("Account with id " ++ toString account_id ++ " not found"))
    | some account =>
      if account.status ≠ some AccountStatus.active then .error .AccountNotActive
      else
        match account.organization_id with
        | none => .error (.Validation "organization_id is required")
        | some organization_id =>
          let currency := account.currency.getD "USD"
          let environment := account.environment.getD "sandbox"
          let (store₁, transaction) :=
            create_or_get_by_idempotency store now organization_id
              account_id account_id amount currency .deposit
              idempotency_key (some environment)
          let post_result := post_transaction environment ledger
          match settle_post_result store₁ now transaction.id post_result with
          | .ok (store₂, transaction₂) => .ok (store₂, account, transaction₂)
          | .error e => .error e

/-- The storage state at the commit point of
`deposit_with_idempotency` — after `tx.commit()` and before the outbound
ledger call.  It is a function of the request alone, not of the ledger
outcome.  `none` when a validation step fails before the commit. -/
def deposit_committed_store
    (accounts : List Account) (store : TxStore) (now : Time)
    (account_id : Uuid) (amount : Int) (idempotency_key : String) :
    Option TxStore :=
  if trim_string idempotency_key == "" then none
  else
    match accounts.find? (fun a => a.id == account_id) with
    | none => none
    | some account =>
      if account.status ≠ some AccountStatus.active then none
      else
        match account.organization_id with
        | none => none
        | some organization_id =>
          let currency := account.currency.getD "USD"
          let environment := account.environment.getD "sandbox"
          some (create_or_get_by_idempotency store now organization_id
            account_id account_id amount currency .deposit
            idempotency_key (some environment)).1

/-- Translation of `AccountService::withdraw_with_idempotency`; identical
pipeline to the deposit, with kind `withdraw` and the ledger posting
directed from the account to `SYSTEM_CASH_CONTROL`. -/
def withdraw_with_idempotency
    (accounts : List Account) (store : TxStore) (now : Time)
    (account_id : Uuid) (amount : Int) (idempotency_key : String)
    (ledger : LedgerOutcome) :
    Except AppError (TxStore × Account × Transaction) :=
  if trim_string idempotency_key == "" then
    .error (.Validation "Idempotency-Key header is required")
  else
    match accounts.find? (fun a => a.id == account_id) with
    | none => .error (.NotFound ("Account with id " ++ toString account_id ++ " not found"))
    | some account =>
      if account.status ≠ some AccountStatus.active then .error .AccountNotActive
      else
        match account.organization_id with
        | none => .error (.Validation "organization_id is required")
        | some organization_id =>
          let currency := account.currency.getD "USD"
          let environment := account.environment.getD "sandbox"
          let (store₁, transaction) :=
            create_or_get_by_idempotency store now organization_id
              account_id account_id amount currency .withdraw
              idempotency_key (some environment)
          let post_result := post_transaction environment ledger
          match settle_post_result store₁ now transaction.id post_result with
          | .ok (store₂, transaction₂) => .ok (store₂, account, transaction₂)
          | .error e => .error e

/-- The storage state at the commit point of `withdraw_with_idempotency`,
before the outbound ledger call. -/
def withdraw_committed_store
    (accounts : List Account) (store : TxStore) (now : Time)
    (account_id : Uuid) (amount : Int) (idempotency_key : String) :
    Option TxStore :=
  if trim_string idempotency_key == "" then none
  else
    match accounts.find? (fun a => a.id == account_id) with
    | none => none
    | some account =>
      if account.status ≠ some AccountStatus.active then none
      else
        match account.organization_id with
        | none => none
        | some organization_id =>
          let currency := account.currency.getD "USD"
          let environment := account.environment.getD "sandbox"
          some (create_or_get_by_idempotency store now organization_id
            account_id account_id amount currency .withdraw
            idempotency_key (some environment)).1

/-- Translation of `AccountService::transfer_with_idempotency`: both
accounts loaded and active, same organisation, same currency, environment
derived from the `from` side, then the shared commit-post-settle
pipeline. -/
def transfer_with_idempotency
    (accounts : List Account) (store : TxStore) (now : Time)
    (from_account_id to_account_id : Uuid) (amount : Int)
    (idempotency_key : String) (ledger : LedgerOutcome) :
    Except AppError (TxStore × Account × Account × Transaction) :=
  if trim_string idempotency_key == "" then
    .error (.Validation "Idempotency-Key header is required")
  else
    match accounts.find? (fun a => a.id == from_account_id) with
    | none => .error (.NotFound ("Account with id " ++ toString from_account_id ++ " not found"))
    | some from_account =>
      if from_account.status ≠ some AccountStatus.active then .error .AccountNotActive
      else
        match accounts.find? (fun a => a.id == to_account_id) with
        | none => .error (.NotFound ("Account with id " ++ toString to_account_id ++ " not found"))
        | some to_account =>
          if to_account.status ≠ some AccountStatus.active then .error .AccountNotActive
          else
            match from_account.organization_id with
            | none => .error (.Validation "organization_id is required")
            | some from_org =>
              match to_account.organization_id with
              | none => .error (.Validation "organization_id is required")
              | some to_org =>
                if from_org ≠ to_org then
                  .error (.Validation "accounts must belong to the same organization")
                else
                  let from_currency := from_account.currency.getD "USD"
                  let to_currency := to_account.currency.getD "USD"
                  if from_currency ≠ to_currency then
                    .error (.Validation "currency must match both accounts")
                  else
                    let environment := from_account.environment.getD "sandbox"
                    let (store₁, transaction) :=
                      create_or_get_by_idempotency store now from_org
                        from_account_id to_account_id amount from_currency .transfer
                        idempotency_key (some environment)
                    let post_result := post_transaction environment ledger
                    match settle_post_result store₁ now transaction.id post_result with
                    | .ok (store₂, transaction₂) =>
                      .ok (store₂, from_account, to_account, transaction₂)
                    | .error e => .error e

/-- The storage state at the commit point of `transfer_with_idempotency`,
before the outbound ledger call. -/
def transfer_committed_store
    (accounts : List Account) (store : TxStore) (now : Time)
    (from_account_id to_account_id : Uuid) (amount : Int)
    (idempotency_key : String) : Option TxStore :=
  if trim_string idempotency_key == "" then none
  else
    match accounts.find? (fun a => a.id == from_account_id) with
    | none => none
    | some from_account =>
      if from_account.status ≠ some AccountStatus.active then none
      else
        match accounts.find? (fun a => a.id == to_account_id) with
        | none => none
        | some to_account =>
          if to_account.status ≠ some AccountStatus.active then none
          else
            match from_account.organization_id with
            | none => none
            | some from_org =>
              match to_account.organization_id with
              | none => none
              | some to_org =>
                if from_org ≠ to_org then none
                else
                  let from_currency := from_account.currency.getD "USD"
                  let to_currency := to_account.currency.getD "USD"
                  if from_currency ≠ to_currency then none
                  else
                    let environment := from_account.environment.getD "sandbox"
                    some (create_or_get_by_idempotency store now from_org
                      from_account_id to_account_id amount from_currency .transfer
                      idempotency_key (some environment)).1

/-! ### Money-movement HTTP handlers (accounts/src/handlers/accounts.rs) -/

/-- The headers consulted by the money-movement handlers. -/
structure MoneyHeaders where
  x_environment : Option String
  idempotency_key : Option String
  x_correlation_id : Option String
deriving Repr

/-- The `Idempotency-Key` extraction shared by the three handlers: trim
the header and require it non-empty. -/
def get_idempotency_key (headers : MoneyHeaders) : Option String :=
  (headers.idempotency_key.map (fun s => trim_string s)).filter (fun s => !(s == ""))

/-- Translation of the `deposit` handler body: extract the environment and
idempotency key, require a positive amount, call the service.  The
handler's own environment extraction feeds the service call path in the
route layer and is retained here for its header semantics. -/
def deposit_handler
    (accounts : List Account) (store : TxStore) (now : Time)
    (headers : MoneyHeaders) (id : Uuid) (amount : Int)
    (ledger : LedgerOutcome) :
    Except AppError (TxStore × Account × Transaction) :=
  let _environment := extract_environment headers.x_environment
  match get_idempotency_key headers with
  | none => .error (.Validation "Idempotency-Key header is required")
  | some idempotency_key =>
    if amount ≤ 0 then .error (.Validation "Amount must be greater than zero")
    else deposit_with_idempotency accounts store now id amount idempotency_key ledger

/-- Translation of the `withdraw` handler body. -/
def withdraw_handler
    (accounts : List Account) (store : TxStore) (now : Time)
    (headers : MoneyHeaders) (id : Uuid) (amount : Int)
    (ledger : LedgerOutcome) :
    Except AppError (TxStore × Account × Transaction) :=
  let _environment := extract_environment headers.x_environment
  match get_idempotency_key headers with
  | none => .error (.Validation "Idempotency-Key header is required")
  | some idempotency_key =>
    if amount ≤ 0 then .error (.Validation "Amount must be greater than zero")
    else withdraw_with_idempotency accounts store now id amount idempotency_key ledger

/-- Translation of the `transfer` handler body. -/
def transfer_handler
    (accounts : List Account) (store : TxStore) (now : Time)
    (headers : MoneyHeaders) (from_id to_account_id : Uuid) (amount : Int)
    (ledger : LedgerOutcome) :
    Except AppError (TxStore × Account × Account × Transaction) :=
  let _environment := extract_environment headers.x_environment
  match get_idempotency_key headers with
  | none => .error (.Validation "Idempotency-Key header is required")
  | some idempotency_key =>
    if amount ≤ 0 then .error (.Validation "Amount must be greater than zero")
    else transfer_with_idempotency accounts store now from_id to_account_id amount
      idempotency_key ledger

/-- The HTTP status of a handler result: a successful money-movement
handler replies `StatusCode::OK`; an `AppError` maps through its
`IntoResponse` instance. -/
def http_status {α : Type} : Except AppError α → Nat
  | .ok _ => 200
  | .error e => e.status_code

/-! ### Users service (mvp/api/users) -/

namespace Users

/-- The users-service error enum (users/src/error.rs). -/
inductive AppError
  | Unauthorized
  | Forbidden
  | UnrecognizedSource
  | BadRequest (msg : String)
  | Internal
deriving DecidableEq, Repr

/-- A `users` row with the columns consulted by login, password reset and
the auth extractor. -/
structure UserRow where
  id : Uuid
  business_id : Uuid
  environment_id : Uuid
  email : String
  password_hash : String
  status : String
  updated_at : Time
deriving DecidableEq, Repr

/-- A `password_reset_tokens` row (users/src/routes/password_reset.rs). -/
structure PasswordResetToken where
  id : Uuid
  user_id : Uuid
  token_hash : String
  expires_at : Time
  used_at : Option Time
  created_at : Time
deriving DecidableEq, Repr

/-- The storage touched by the password-reset consume flow. -/
structure UsersDb where
  users : List UserRow
  password_reset_tokens : List PasswordResetToken
deriving DecidableEq, Repr

/-- The row filter of `claim_token_sql`:
`token_hash = $2 AND used_at IS NULL AND expires_at >= $1` with `$1` bound
to the current time. -/
def claimable (now : Time) (token_hash : String) (t : PasswordResetToken) : Bool :=
  t.token_hash == token_hash && t.used_at == none && now ≤ t.expires_at

/-- An `UPDATE password_reset_tokens SET used_at = now WHERE p` statement:
every row satisfying `p` gets `used_at` stamped. -/
def mark_used (p : PasswordResetToken → Bool) (now : Time)
    (tokens : List PasswordResetToken) : List PasswordResetToken :=
  tokens.map (fun t => if p t then { t with used_at := some now } else t)

/-- Translation of the atomic claim (`claim_token_sql` executed with
`fetch_optional`): update every claimable row, returning
`(id, user_id)` of the first claimed row if any. -/
def claim_token (tokens : List PasswordResetToken) (now : Time)
    (token_hash : String) :
    List PasswordResetToken × Option (Uuid × Uuid) :=
  (mark_used (claimable now token_hash) now tokens,
   (tokens.find? (claimable now token_hash)).map (fun t => (t.id, t.user_id)))

/-- The success message literal of `reset_password`. -/
def reset_success_message : String :=
  "Password has been reset successfully. You can now log in with your new password."

/-- Translation of `reset_password` (users/src/routes/password_reset.rs):
hash the incoming token (`sha256` abstracted), validate password strength
(byte length at least 8) before touching storage, atomically claim the
token inside a transaction, update the user's password hash (the fresh
Argon2 output abstracted as `argon2_hash`), and invalidate every other
unused token of the user.  Error paths leave storage unchanged (the early
returns precede the transaction; the empty claim rolls it back having
updated no row). -/
def reset_password (db : UsersDb) (now : Time)
    (sha256 : String → String) (argon2_hash : String)
    (token : String) (new_password : String) :
    UsersDb × Except AppError String :=
  let token_hash := sha256 token
  if new_password.utf8ByteSize < 8 then
    (db, .error (.BadRequest "Password must be at least 8 characters long"))
  else
    let (tokens₁, claimed) := claim_token db.password_reset_tokens now token_hash
    match claimed with
    | none => (db, .error (.BadRequest "Invalid or expired reset token"))
    | some (token_id, user_id) =>
      let users₁ := db.users.map (fun u =>
        if u.id == user_id then { u with password_hash := argon2_hash, updated_at := now }
        else u)
      let tokens₂ := mark_used
        (fun t => t.user_id == user_id && !(t.id == token_id) && t.used_at == none)
        now tokens₁
      ({ users := users₁, password_reset_tokens := tokens₂ }, .ok reset_success_message)

/-- One invocation of the reset-password endpoint in a sequence of calls:
its timestamp, the submitted token and password, and the Argon2 output the
KDF would produce on success. -/
structure ResetCall where
  now : Time
  token : String
  new_password : String
  argon2_hash : String
deriving Repr

/-- Run one reset call, reporting whether it succeeded. -/
def reset_step (sha256 : String → String) (db : UsersDb) (c : ResetCall) :
    UsersDb × Bool :=
  match reset_password db c.now sha256 c.argon2_hash c.token c.new_password with
  | (db', .ok _) => (db', true)
  | (db', .error _) => (db', false)

/-- Run a sequence of reset calls, pairing each call with its outcome. -/
def run_resets (sha256 : String → String) :
    UsersDb → List ResetCall → List (ResetCall × Bool)
  | _, [] => []
  | db, c :: rest =>
    let (db', ok) := reset_step sha256 db c
    (c, ok) :: run_resets sha256 db' rest

/-- How many calls in a run both used the token `t` and succeeded. -/
def success_count_for (t : String) (results : List (ResetCall × Bool)) : Nat :=
  results.countP (fun r => r.1.token == t && r.2)

/-- No token row hashing to `h` is claimable at any time from `n` on:
each is already used or already expired. -/
def DeadHash (tokens : List PasswordResetToken) (h : String) (n : Time) : Prop :=
  ∀ t ∈ tokens, t.token_hash = h → t.used_at ≠ none ∨ t.expires_at < n

instance (tokens : List PasswordResetToken) (h : String) (n : Time) :
    Decidable (DeadHash tokens h n) := by
  unfold DeadHash
  exact inferInstance

/-! #### Auth extractor (users/src/auth.rs) -/

/-- Header name constant from users/src/auth.rs. -/
def ENVIRONMENT_ID_HEADER : String := "X-Environment-Id"

/-- Header name constant from users/src/auth.rs. -/
def API_KEY_HEADER : String := "X-API-Key"

/-- Header name constant from users/src/auth.rs. -/
def ENVIRONMENT_HEADER : String := "X-Environment"

/-- The bearer token's claims (`JwtClaims`): subject, expiry and an
optional embedded environment. -/
structure JwtClaims where
  sub : String
  exp : Int
  env : Option String
deriving DecidableEq, Repr

/-- An `api_keys` row with the columns consulted by the auth extractor. -/
structure ApiKeyRow where
  id : Uuid
  business_id : Uuid
  key_hash : String
  status : String
  revoked_at : Option Time
  last_used_at : Option Time
deriving DecidableEq, Repr

/-- An `environments` row. -/
structure EnvironmentRow where
  id : Uuid
  business_id : Uuid
  type : String
  status : String
deriving DecidableEq, Repr

/-- The storage consulted by the auth extractor. -/
structure AuthDb where
  api_keys : List ApiKeyRow
  environments : List EnvironmentRow
  users : List UserRow
deriving DecidableEq, Repr

/-- The request headers the auth extractor reads. -/
structure RequestHeaders where
  x_environment_id : Option String
  x_environment : Option String
  x_api_key : Option String
  authorization : Option String
deriving DecidableEq, Repr

/-- The resolved principal (`AuthContext`). -/
structure AuthContext where
  user_id : Option Uuid
  api_key_id : Option Uuid
  business_id : Uuid
  environment_id : Uuid
deriving DecidableEq, Repr

/-- Translation of `FromRequestParts for AuthContext`
(`from_request_parts`): parse the optional `X-Environment-Id` UUID header;
an API key, when present, resolves through the key row and an environment
derived from the UUID header or the symbolic `X-Environment` header;
otherwise the bearer path requires the UUID header, verifies the bearer
(abstracted as `decode_jwt`, which yields the claims only for a token with
a valid signature and unexpired `exp`), parses `sub`, and confirms the
user is active in the referenced environment.  UUID parsing is abstracted
as `parse_uuid` and the keyed API-key hash as `hash_api_key`. -/
def from_request_parts (db : AuthDb) (now : Time)
    (parse_uuid : String → Option Uuid)
    (hash_api_key : String → String)
    (decode_jwt : String → Option JwtClaims)
    (headers : RequestHeaders) :
    Except AppError (AuthContext × AuthDb) :=
  let env_id_raw := (headers.x_environment_id.map trim_string).filter (fun s => !(s == ""))
  let env_id_parsed : Except AppError (Option Uuid) :=
    match env_id_raw with
    | none => .ok none
    | some raw =>
      match parse_uuid raw with
      | none => .error (.BadRequest ("Invalid " ++ ENVIRONMENT_ID_HEADER ++ " header"))
      | some u => .ok (some u)
  match env_id_parsed with
  | .error e => .error e
  | .ok environment_id_from_uuid_header =>
    let environment_from_string_header :=
      (headers.x_environment.map trim_string).filter (fun s => !(s == ""))
    match (headers.x_api_key.map trim_string).filter (fun s => !(s == "")) with
    | some api_key_plain =>
      let key_hash := hash_api_key api_key_plain
      match db.api_keys.find? (fun k => k.key_hash == key_hash) with
      | none => .error .Unauthorized
      | some key_row =>
        if !(key_row.status == "active") || key_row.revoked_at.isSome then
          .error .Unauthorized
        else
          let env_id_result : Except AppError Uuid :=
            match environment_id_from_uuid_header with
            | some env_id => .ok env_id
            | none =>
              match environment_from_string_header with
              | none => .error (.BadRequest ("Missing " ++ ENVIRONMENT_HEADER ++ " header"))
              | some env =>
                if !(env == "sandbox") && !(env == "production") then
                  .error (.BadRequest ("Invalid " ++ ENVIRONMENT_HEADER
                    ++ " header: must be 'sandbox' or 'production'"))
                else
                  match db.environments.find? (fun e =>
                      e.business_id == key_row.business_id && e.type == env
                        && e.status == "active") with
                  | none => .error .Forbidden
                  | some env_rec => .ok env_rec.id
          match env_id_result with
          | .error e => .error e
          | .ok environment_id =>
            let env_ok := db.environments.find? (fun e =>
              e.id == environment_id && e.business_id == key_row.business_id
                && e.status == "active")
            if env_ok.isNone then .error .Forbidden
            else
              let api_keys₁ := db.api_keys.map (fun k =>
                if k.id == key_row.id then { k with last_used_at := some now } else k)
              .ok ({ user_id := none, api_key_id := some key_row.id,
                     business_id := key_row.business_id,
                     environment_id := environment_id },
                   { db with api_keys := api_keys₁ })
    | none =>
      match environment_id_from_uuid_header with
      | none => .error (.BadRequest ("Missing " ++ ENVIRONMENT_ID_HEADER ++ " header"))
      | some environment_id =>
        match headers.authorization with
        | none => .error .Unauthorized
        | some auth_header =>
          if !(starts_with ("Bearer ").data auth_header.data) then .error .Unauthorized
          else
            let token := String.mk (auth_header.data.drop 7)
            match decode_jwt token with
            | none => .error .Unauthorized
            | some claims =>
              match parse_uuid claims.sub with
              | none => .error .Unauthorized
              | some user_id =>
                match db.users.find? (fun u =>
                    u.id == user_id && u.environment_id == environment_id
                      && u.status == "active") with
                | none => .error .Forbidden
                | some user_row =>
                  .ok ({ user_id := some user_id, api_key_id := none,
                         business_id := user_row.business_id,
                         environment_id := environment_id }, db)

/-! #### Login (users/src/routes/auth.rs) -/

/-- The environment summary returned by login. -/
structure EnvironmentInfo where
  id : Uuid
  type : String
deriving DecidableEq, Repr

/-- Lexicographic comparison of character lists by code point; UTF-8 byte
order coincides with code-point order, so this models Rust `String::cmp`. -/
def chars_le : List Char → List Char → Bool
  | [], _ => true
  | _ :: _, [] => false
  | a :: as, b :: bs =>
    if a.toNat < b.toNat then true
    else if b.toNat < a.toNat then false
    else chars_le as bs

/-- `a <= b` in Rust string order. -/
def string_le (a b : String) : Bool :=
  chars_le a.data b.data

/-- Insert an environment after every element whose type key is not
greater — one step of a stable insertion sort. -/
def insert_env_by_type (e : EnvironmentInfo) :
    List EnvironmentInfo → List EnvironmentInfo
  | [] => [e]
  | x :: xs =>
    if string_le x.type e.type then x :: insert_env_by_type e xs
    else e :: x :: xs

/-- Model of the `sort_by` on the environment `type` key in `login`
(a stable sort; sandbox before production by the lexicographic key). -/
def sort_envs_by_type : List EnvironmentInfo → List EnvironmentInfo
  | [] => []
  | x :: xs => insert_env_by_type x (sort_envs_by_type xs)

/-- The business's active environments as login presents them: filtered,
projected to `EnvironmentInfo` and sorted by type. -/
def available_envs_of (db_environments : List EnvironmentRow) (business_id : Uuid) :
    List EnvironmentInfo :=
  sort_envs_by_type
    ((db_environments.filter (fun e =>
        e.business_id == business_id && e.status == "active")).map
      (fun e => EnvironmentInfo.mk e.id e.type))

/-- The environment-selection rule of `login` (lines 124..142): the
requested environment when it is available, else the sandbox environment
when present, else the first available environment. -/
def select_environment (available_envs : List EnvironmentInfo)
    (requested_env_id : Option Uuid) : Uuid :=
  let sandbox_env_id :=
    (available_envs.find? (fun e => e.type == "sandbox")).map (fun e => e.id)
  match requested_env_id with
  | some env_id =>
    if available_envs.any (fun e => e.id == env_id) then env_id
    else
      match sandbox_env_id with
      | some sandbox_id => sandbox_id
      | none => (available_envs.headD { id := 0, type := "" }).id
  | none =>
    match sandbox_env_id with
    | some sandbox_id => sandbox_id
    | none => (available_envs.headD { id := 0, type := "" }).id

/-- The body of `login` after the user lookup, over the rows the query
`SELECT ... FROM users WHERE email = $1 AND status = 'active'` returned:
verify the password against the FIRST row's hash, fetch the business's
active environments, sort them by type, select the target environment,
find the user row in the selected environment, and mint the session for
it.  Password verification (hash parse plus Argon2 verify) is abstracted
as `verify_password`; the minted tokens are opaque and elided, the result
carrying `(user_id, selected_environment_id, environments)`.  The source
indexes `available_envs[0]`, reachable only when the list is non-empty;
the model supplies a default that is never hit. -/
def login_rows (user_rows : List UserRow)
    (db_environments : List EnvironmentRow)
    (verify_password : String → String → Bool)
    (password : String) (requested_env_id : Option Uuid) :
    Except AppError (Uuid × Uuid × List EnvironmentInfo) :=
  match user_rows with
  | [] => .error .Unauthorized
  | first :: _ =>
    if !(verify_password password first.password_hash) then .error .Unauthorized
    else
      let business_id := first.business_id
      let environments := db_environments.filter (fun e =>
        e.business_id == business_id && e.status == "active")
      if environments.isEmpty then .error .Unauthorized
      else
        let available_envs :=
          sort_envs_by_type (environments.map (fun e => EnvironmentInfo.mk e.id e.type))
        let selected_environment_id := select_environment available_envs requested_env_id
        match user_rows.find? (fun row =>
            row.status == "active" && row.environment_id == selected_environment_id) with
        | none => .error .Unauthorized
        | some row => .ok (row.id, selected_environment_id, available_envs)

/-- Translation of `login`: fetch the active users with the submitted
email, then run the post-lookup body. -/
def login (db_users : List UserRow) (db_environments : List EnvironmentRow)
    (verify_password : String → String → Bool)
    (email password : String) (requested_env_id : Option Uuid) :
    Except AppError (Uuid × Uuid × List EnvironmentInfo) :=
  login_rows
    (db_users.filter (fun u => u.email == email && u.status == "active"))
    db_environments verify_password password requested_env_id

end Users

/-! ### Concrete fixtures used to evaluate the models at specific inputs -/

/-- A sandbox environment tag. -/
def fx_env : Option String := some "sandbox"

/-- An idempotency key. -/
def fx_key : String := "K1"

/-- An empty transactions table. -/
def fx_store0 : TxStore := { rows := [], next_id := 0 }

/-- An active account in organisation 7, sandbox, USD. -/
def fx_account : Account :=
  { id := 1
    account_number := "627298155521763"
    organization_id := some 7
    environment := some "sandbox"
    user_id := 3
    currency := some "USD"
    status := some .active }

/-- The accounts table holding just `fx_account`. -/
def fx_accounts : List Account := [fx_account]

/-- A ledger remote response accepting the posting. -/
def fx_ledger_posted : LedgerOutcome := .response ("posted") ("")

/-- A ledger remote response rejecting the posting. -/
def fx_ledger_rejected : LedgerOutcome := .response ("rejected") ("insufficient funds")

/-- First deposit of the replay scenario: amount 100, key `K1`, the
ledger accepts. -/
def fx_dep1 : Except AppError (TxStore × Account × Transaction) :=
  deposit_with_idempotency fx_accounts fx_store0 5 1 100 fx_key fx_ledger_posted

/-- The committed state after the first deposit of the replay scenario. -/
def fx_store1 : TxStore :=
  match fx_dep1 with
  | .ok (s, _, _) => s
  | .error _ => fx_store0

/-- Replay of the same deposit (same idempotency key) while the ledger
times out. -/
def fx_dep2 : Except AppError (TxStore × Account × Transaction) :=
  deposit_with_idempotency fx_accounts fx_store1 6 1 100 fx_key .timeoutExpired

/-- The committed state after the replayed deposit. -/
def fx_store2 : TxStore :=
  match fx_dep2 with
  | .ok (s, _, _) => s
  | .error _ => fx_store1

/-- Headers of a well-formed money-movement request. -/
def fx_headers : MoneyHeaders :=
  { x_environment := some "sandbox"
    idempotency_key := some "K1"
    x_correlation_id := none }

/-- A stored, unused password-reset token expiring at time 100. -/
def fx_token_row : Users.PasswordResetToken :=
  { id := 1
    user_id := 2
    token_hash := "T1"
    expires_at := 100
    used_at := none
    created_at := 0 }

/-- A users-service store with one active user and the token above. -/
def fx_users_db : Users.UsersDb :=
  { users := [{ id := 2, business_id := 3, environment_id := 4, email := "alice@acme.com",
                password_hash := "H0", status := "active", updated_at := 0 }]
    password_reset_tokens := [fx_token_row] }

/-- The abstract SHA-256, instantiated as the identity for evaluation. -/
def fx_sha : String → String := fun s => s

/-- Storage for the auth extractor: a business 3 with an active sandbox
environment 4 and a production environment 5, and an active user 2 in
environment 4. -/
def fx_auth_db : Users.AuthDb :=
  { api_keys := []
    environments := [{ id := 4, business_id := 3, type := "sandbox", status := "active" },
                     { id := 5, business_id := 3, type := "production", status := "active" }]
    users := [{ id := 2, business_id := 3, environment_id := 4, email := "alice@acme.com",
                password_hash := "H0", status := "active", updated_at := 0 }] }

/-- A concrete UUID parser for the fixture ids. -/
def fx_parse_uuid : String → Option Uuid :=
  fun s => if s == "2" then some 2 else if s == "4" then some 4 else none

/-- A concrete bearer decoder: the token `tok` verifies and carries
subject 2 with an embedded `env` claim. -/
def fx_decode_jwt : String → Option Users.JwtClaims :=
  fun s => if s == "tok" then some { sub := "2", exp := 99, env := some "sandbox" } else none

/-- A bearer request without any environment header. -/
def fx_bearer_headers_no_env : Users.RequestHeaders :=
  { x_environment_id := none
    x_environment := none
    x_api_key := none
    authorization := some "Bearer tok" }

/-- A bearer request with the `X-Environment-Id` header set to 4. -/
def fx_bearer_headers_env4 : Users.RequestHeaders :=
  { x_environment_id := some "4"
    x_environment := none
    x_api_key := none
    authorization := some "Bearer tok" }

/-- Two active user rows sharing an email across environments 4 and 5,
with distinct password hashes. -/
def fx_login_rows : List Users.UserRow :=
  [{ id := 10, business_id := 3, environment_id := 4, email := "alice@acme.com",
     password_hash := "H1", status := "active", updated_at := 0 },
   { id := 11, business_id := 3, environment_id := 5, email := "alice@acme.com",
     password_hash := "H2", status := "active", updated_at := 0 }]

/-- A password verifier that accepts only the pair (`pw`, `H1`). -/
def fx_verify : String → String → Bool :=
  fun password hash => password == "pw" && hash == "H1"

/-! ## Helper lemmas -/

theorem find?_append_of_none {α : Type} {p : α → Bool} {l₁ l₂ : List α}
    (h : l₁.find? p = none) : (l₁ ++ l₂).find? p = l₂.find? p := by
  induction l₁ with
  | nil => simp
  | cons a l ih =>
    simp only [List.cons_append, List.find?_cons] at h ⊢
    cases hpa : p a with
    | true => simp [hpa] at h
    | false =>
      simp only [hpa] at h ⊢
      exact ih h

theorem find?_congr {α : Type} {p q : α → Bool} (l : List α)
    (h : ∀ a ∈ l, p a = q a) : l.find? p = l.find? q := by
  induction l with
  | nil => rfl
  | cons a l ih =>
    simp only [List.find?_cons]
    rw [h a (by simp)]
    cases q a
    · exact ih (fun a ha => h a (by simp [ha]))
    · rfl

theorem countP_congr_mem {α : Type} {p q : α → Bool} (l : List α)
    (h : ∀ a ∈ l, p a = q a) : l.countP p = l.countP q := by
  induction l with
  | nil => rfl
  | cons a l ih =>
    rw [List.countP_cons, List.countP_cons, h a (by simp),
      ih (fun a ha => h a (by simp [ha]))]

/-! ## C6 — environment extraction -/

/-- C6: on tenant routes of the Accounts service the resolved environment
is `production` exactly when the `X-Environment` header is present and its
trimmed, lower-cased value is `production`; in every other case (header
absent or any other value) the result is `sandbox`, so the resolution
never defaults to `production`. -/
theorem c6_extract_environment_production_only_when_requested :
    (∀ header : Option String,
        extract_environment header = "production" ↔
          ∃ s, header = some s ∧ lower_string (trim_string s) = "production")
      ∧ (∀ header : Option String,
          extract_environment header = "production" ∨
            extract_environment header = "sandbox") := by
  constructor
  · intro header
    cases header with
    | none => simp [extract_environment]
    | some v =>
      by_cases hp : lower_string (trim_string v) = "production"
      · simp [extract_environment, hp]
      · by_cases hs : lower_string (trim_string v) = "sandbox"
        · simp [extract_environment, hp, hs]
        · simp [extract_environment, hp, hs]
  · intro header
    cases header with
    | none => simp [extract_environment]
    | some v =>
      by_cases hp : lower_string (trim_string v) = "production"
      · simp [extract_environment, hp]
      · by_cases hs : lower_string (trim_string v) = "sandbox"
        · simp [extract_environment, hp, hs]
        · simp [extract_environment, hp, hs]

/-! ## C7 — account numbers and the Luhn checksum -/

theorem luhn_checksum_le_nine (payload : List Nat) : luhn_checksum payload ≤ 9 := by
  unfold luhn_checksum
  omega

theorem luhn_valid_append_checksum (payload : List Nat) :
    luhn_valid (payload ++ [luhn_checksum payload]) = true := by
  have hrev : (payload ++ [luhn_checksum payload]).reverse
      = luhn_checksum payload :: payload.reverse := by
    simp
  rw [luhn_valid, hrev]
  have hsum : luhn_sum (luhn_checksum payload :: payload.reverse) false
      = luhn_checksum payload + luhn_sum payload.reverse true := by
    simp [luhn_sum]
  rw [hsum, luhn_checksum]
  simp only [beq_iff_eq]
  omega

theorem digit_char_isDigit {d : Nat} (hd : d ≤ 9) : (digit_char d).isDigit = true := by
  interval_cases d <;> decide

theorem char_digit_digit_char {d : Nat} (hd : d ≤ 9) : char_digit (digit_char d) = d := by
  interval_cases d <;> decide

theorem digit_char_ne_zero_char {d : Nat} (h1 : 1 ≤ d) (h9 : d ≤ 9) :
    digit_char d ≠ '0' := by
  interval_cases d <;> decide

theorem generate_loop_ok {draws : List (Nat × List Nat)}
    {account_number_exists : String → Bool} {s : String}
    (h : generate_account_number_loop draws account_number_exists = .ok s) :
    ∃ draw ∈ draws, s = make_account_number draw.1 draw.2 := by
  induction draws with
  | nil => simp [generate_account_number_loop] at h
  | cons d rest ih =>
    rw [generate_account_number_loop] at h
    cases hex : account_number_exists (make_account_number d.1 d.2) with
    | true =>
      simp only [hex] at h
      simp at h
      obtain ⟨draw, hmem, hs⟩ := ih h
      exact ⟨draw, by simp [hmem], hs⟩
    | false =>
      simp only [hex] at h
      simp at h
      exact ⟨d, by simp, h.symm⟩

theorem validate_account_number_eq (s : String) :
    validate_account_number s
      = (s.data.all Char.isDigit && decide (10 ≤ s.length) && decide (s.length ≤ 16)
          && luhn_valid (s.data.map char_digit)) := by
  cases hall : s.data.all (fun c => c.isDigit) with
  | false => simp [validate_account_number, hall]
  | true =>
    by_cases h2 : s.length < 10
    · have h2' : ¬ (10 ≤ s.length) := by omega
      simp [validate_account_number, hall, h2, h2']
    · by_cases h3 : s.length > 16
      · have h3' : ¬ (s.length ≤ 16) := by omega
        simp [validate_account_number, hall, h2, h3, h3']
      · have h2' : 10 ≤ s.length := by omega
        have h3' : s.length ≤ 16 := by omega
        simp [validate_account_number, hall, h2, h3, h2', h3']

theorem make_account_number_data (first_digit : Nat) (rest : List Nat) :
    (make_account_number first_digit rest).data
      = ((first_digit :: rest) ++ [luhn_checksum (first_digit :: rest)]).map digit_char := rfl

/-- C7: every successful run of the generator returns a string of length
`clamp(L, 10, 16)` made only of decimal digits, starting with a non-zero
digit, whose last digit is the Luhn check digit of the preceding digits —
so the validator accepts it; and the validator accepts exactly the
all-digit strings of length 10..16 with a valid Luhn checksum. -/
theorem c7_account_number_generation_validation :
    (∀ (length : Nat) (draws : List (Nat × List Nat))
        (account_number_exists : String → Bool) (s : String),
        (∀ p ∈ draws, ValidDraw length p) →
        generate_account_number length draws account_number_exists = .ok s →
        s.length = Nat.min (Nat.max length 10) 16
          ∧ s.data.all Char.isDigit = true
          ∧ (∃ c0, s.data.head? = some c0 ∧ c0 ≠ '0')
          ∧ (∃ base, s.data.map char_digit = base ++ [luhn_checksum base])
          ∧ validate_account_number s = true)
      ∧ (∀ s : String, validate_account_number s = true ↔
          (s.data.all Char.isDigit = true ∧ 10 ≤ s.length ∧ s.length ≤ 16
            ∧ luhn_valid (s.data.map char_digit) = true)) := by
  constructor
  · intro length draws account_number_exists s hdraws hgen
    obtain ⟨draw, hmem, hs⟩ := generate_loop_ok hgen
    obtain ⟨h1, h9, hlen, hrest⟩ := hdraws draw (List.mem_of_mem_take hmem)
    obtain ⟨f, rest⟩ := draw
    simp only at h1 h9 hlen hrest hs
    have hc : luhn_checksum (f :: rest) ≤ 9 := luhn_checksum_le_nine _
    have hall : ∀ d ∈ (f :: rest) ++ [luhn_checksum (f :: rest)], d ≤ 9 := by
      intro d hd
      rcases List.mem_append.mp hd with hd | hd
      · rcases List.mem_cons.mp hd with rfl | hd
        · exact h9
        · exact hrest d hd
      · rw [List.mem_singleton] at hd
        subst hd
        exact hc
    have hdata := make_account_number_data f rest
    have hclamp : 10 ≤ Nat.min (Nat.max length 10) 16 ∧ Nat.min (Nat.max length 10) 16 ≤ 16 :=
      ⟨Nat.le_min.mpr ⟨Nat.le_max_right _ _, by norm_num⟩, Nat.min_le_right _ _⟩
    have hmk : (make_account_number f rest).length = rest.length + 2 := by
      show (((f :: rest) ++ [luhn_checksum (f :: rest)]).map digit_char).length
        = rest.length + 2
      simp
    have hlens : s.length = Nat.min (Nat.max length 10) 16 := by
      rw [hs, hmk]
      omega
    have hdigits : s.data.all Char.isDigit = true := by
      rw [hs, hdata, List.all_eq_true]
      intro c hcmem
      obtain ⟨d, hd, rfl⟩ := List.mem_map.mp hcmem
      exact digit_char_isDigit (hall d hd)
    have hmap : s.data.map char_digit
        = (f :: rest) ++ [luhn_checksum (f :: rest)] := by
      rw [hs, hdata, List.map_map]
      have : ∀ d ∈ (f :: rest) ++ [luhn_checksum (f :: rest)],
          (char_digit ∘ digit_char) d = id d := by
        intro d hd
        simp only [Function.comp_apply, id_eq]
        exact char_digit_digit_char (hall d hd)
      rw [List.map_congr_left this, List.map_id]
    refine ⟨hlens, hdigits, ?_, ⟨f :: rest, hmap⟩, ?_⟩
    · refine ⟨digit_char f, ?_, digit_char_ne_zero_char h1 h9⟩
      rw [hs, hdata]
      simp
    · rw [validate_account_number_eq, hdigits, hmap]
      rw [luhn_valid_append_checksum]
      have h10 : 10 ≤ s.length := by omega
      have h16 : s.length ≤ 16 := by omega
      simp [h10, h16]
  · intro s
    rw [validate_account_number_eq]
    simp only [Bool.and_eq_true, decide_eq_true_eq]
    tauto

/-- Witness for C7 at the concrete request `L = 12` with one in-range draw
and an empty storage-existence predicate. -/
theorem c7_witness :
    ((∀ p ∈ ([(1, [0, 0, 0, 0, 0, 0, 0, 0, 0, 0])] : List (Nat × List Nat)),
        ValidDraw 12 p)
      ∧ generate_account_number 12 [(1, [0, 0, 0, 0, 0, 0, 0, 0, 0, 0])]
          (fun _ => false) = .ok (make_account_number 1 [0, 0, 0, 0, 0, 0, 0, 0, 0, 0]))
    ∧ ((make_account_number 1 [0, 0, 0, 0, 0, 0, 0, 0, 0, 0]).length
          = Nat.min (Nat.max 12 10) 16
        ∧ (make_account_number 1 [0, 0, 0, 0, 0, 0, 0, 0, 0, 0]).data.all Char.isDigit = true
        ∧ (∃ c0, (make_account_number 1 [0, 0, 0, 0, 0, 0, 0, 0, 0, 0]).data.head? = some c0
            ∧ c0 ≠ '0')
        ∧ (∃ base, (make_account_number 1 [0, 0, 0, 0, 0, 0, 0, 0, 0, 0]).data.map char_digit
            = base ++ [luhn_checksum base])
        ∧ validate_account_number (make_account_number 1 [0, 0, 0, 0, 0, 0, 0, 0, 0, 0]) = true) :=
  ⟨⟨by decide, rfl⟩,
   c7_account_number_generation_validation.1 12 [(1, [0, 0, 0, 0, 0, 0, 0, 0, 0, 0])]
     (fun _ => false) _ (by decide) rfl⟩

/-! ## C1 — idempotency engine -/

/-- C1: `create_or_get_by_idempotency` returns a matching row unchanged
(with the state untouched) when one exists for
`(organization_id, COALESCE(environment, ''), idempotency_key)`, and
otherwise appends exactly one new `pending` row matching the triple;
therefore a repeated call with the same triple (under COALESCE) returns
the very same row and leaves the state unchanged, and the per-triple
at-most-one-row invariant is preserved by every call. -/
theorem c1_create_or_get_by_idempotency_spec :
    (∀ store now org f t amt cur kind key env txn,
        store.rows.find? (fun r => matches_triple r org env key) = some txn →
        create_or_get_by_idempotency store now org f t amt cur kind key env = (store, txn))
      ∧ (∀ store now org f t amt cur kind key env,
          store.rows.find? (fun r => matches_triple r org env key) = none →
          (create_or_get_by_idempotency store now org f t amt cur kind key env).1.rows
              = store.rows
                ++ [(create_or_get_by_idempotency store now org f t amt cur kind key env).2]
            ∧ (create_or_get_by_idempotency store now org f t amt cur kind key env).2.status
              = TransactionStatus.pending
            ∧ matches_triple
                (create_or_get_by_idempotency store now org f t amt cur kind key env).2
                org env key = true)
      ∧ (∀ store now now' org f t f' t' amt amt' cur cur' kind kind' key env env',
          coalesce_env env' = coalesce_env env →
          create_or_get_by_idempotency
              (create_or_get_by_idempotency store now org f t amt cur kind key env).1
              now' org f' t' amt' cur' kind' key env'
            = ((create_or_get_by_idempotency store now org f t amt cur kind key env).1,
               (create_or_get_by_idempotency store now org f t amt cur kind key env).2))
      ∧ (∀ store now org f t amt cur kind key env,
          (∀ o e k, store.rows.countP (fun r => matches_triple r o e k) ≤ 1) →
          ∀ o e k,
            (create_or_get_by_idempotency store now org f t amt cur kind key env).1.rows.countP
              (fun r => matches_triple r o e k) ≤ 1) := by
  have hit : ∀ store now org f t amt cur kind key env txn,
      store.rows.find? (fun r => matches_triple r org env key) = some txn →
      create_or_get_by_idempotency store now org f t amt cur kind key env = (store, txn) := by
    intro store now org f t amt cur kind key env txn h
    simp only [create_or_get_by_idempotency, h]
  have miss : ∀ store now org f t amt cur kind key env,
      store.rows.find? (fun r => matches_triple r org env key) = none →
      (create_or_get_by_idempotency store now org f t amt cur kind key env).1.rows
          = store.rows
            ++ [(create_or_get_by_idempotency store now org f t amt cur kind key env).2]
        ∧ (create_or_get_by_idempotency store now org f t amt cur kind key env).2.status
          = TransactionStatus.pending
        ∧ matches_triple
            (create_or_get_by_idempotency store now org f t amt cur kind key env).2
            org env key = true := by
    intro store now org f t amt cur kind key env h
    simp only [create_or_get_by_idempotency, h]
    simp [matches_triple]
  refine ⟨hit, miss, ?_, ?_⟩
  · intro store now now' org f t f' t' amt amt' cur cur' kind kind' key env env' hco
    have hpred : ∀ r, matches_triple r org env' key = matches_triple r org env key := by
      intro r
      unfold matches_triple
      rw [hco]
    cases hfind : store.rows.find? (fun r => matches_triple r org env key) with
    | some txn =>
      rw [hit store now org f t amt cur kind key env txn hfind]
      have hfind' : store.rows.find? (fun r => matches_triple r org env' key) = some txn := by
        rw [find?_congr store.rows (fun r _ => hpred r)]
        exact hfind
      exact hit store now' org f' t' amt' cur' kind' key env' txn hfind'
    | none =>
      obtain ⟨hrows, _, hm⟩ := miss store now org f t amt cur kind key env hfind
      have hnone : store.rows.find? (fun r => matches_triple r org env' key) = none := by
        rw [find?_congr store.rows (fun r _ => hpred r)]
        exact hfind
      apply hit
      rw [hrows, find?_append_of_none hnone]
      have hm' : matches_triple
          (create_or_get_by_idempotency store now org f t amt cur kind key env).2
          org env' key = true := by
        rw [hpred]
        exact hm
      simp [List.find?, hm']
  · intro store now org f t amt cur kind key env hinv o e k
    cases hfind : store.rows.find? (fun r => matches_triple r org env key) with
    | some txn =>
      rw [hit store now org f t amt cur kind key env txn hfind]
      exact hinv o e k
    | none =>
      obtain ⟨hrows, _, hm⟩ := miss store now org f t amt cur kind key env hfind
      rw [hrows, List.countP_append]
      cases hmt : matches_triple
          (create_or_get_by_idempotency store now org f t amt cur kind key env).2 o e k with
      | false =>
        have hz : List.countP (fun r => matches_triple r o e k)
            [(create_or_get_by_idempotency store now org f t amt cur kind key env).2] = 0 := by
          simp [List.countP_cons, hmt]
        rw [hz]
        have := hinv o e k
        omega
      | true =>
        unfold matches_triple at hmt hm
        simp only [Bool.and_eq_true, beq_iff_eq] at hmt hm
        obtain ⟨⟨ho, he⟩, hk⟩ := hmt
        obtain ⟨⟨ho₀, he₀⟩, hk₀⟩ := hm
        have hz : store.rows.countP (fun r => matches_triple r o e k) = 0 := by
          rw [List.countP_eq_zero]
          intro r hr
          have hnot := List.find?_eq_none.mp hfind r hr
          intro hcontra
          apply hnot
          unfold matches_triple at hcontra ⊢
          simp only [Bool.and_eq_true, beq_iff_eq] at hcontra ⊢
          obtain ⟨⟨ho', he'⟩, hk'⟩ := hcontra
          refine ⟨⟨?_, ?_⟩, ?_⟩
          · rw [ho', ← ho, ho₀]
          · rw [he', ← he, he₀]
          · rw [hk', ← hk, hk₀]
        rw [hz]
        have hone : List.countP (fun r => matches_triple r o e k)
            [(create_or_get_by_idempotency store now org f t amt cur kind key env).2] ≤ 1 := by
          simp only [List.countP_cons, List.countP_nil]
          split <;> omega
        omega

/-- Witness for C1: on the empty table the triple
`(7, sandbox, K1)` has no row, the first call inserts a matching pending
row, and the replayed call returns the same state and row. -/
theorem c1_witness :
    (fx_store0.rows.find? (fun r => matches_triple r 7 fx_env fx_key) = none)
    ∧ ((create_or_get_by_idempotency fx_store0 5 7 1 1 100 ("USD") .deposit fx_key fx_env).1.rows
        = fx_store0.rows
          ++ [(create_or_get_by_idempotency fx_store0 5 7 1 1 100 ("USD") .deposit fx_key fx_env).2]
      ∧ (create_or_get_by_idempotency fx_store0 5 7 1 1 100 ("USD") .deposit fx_key fx_env).2.status
        = TransactionStatus.pending
      ∧ matches_triple
          (create_or_get_by_idempotency fx_store0 5 7 1 1 100 ("USD") .deposit fx_key fx_env).2
          7 fx_env fx_key = true)
    ∧ (create_or_get_by_idempotency
          (create_or_get_by_idempotency fx_store0 5 7 1 1 100 ("USD") .deposit fx_key fx_env).1
          6 7 1 1 250 ("USD") .withdraw fx_key fx_env
        = ((create_or_get_by_idempotency fx_store0 5 7 1 1 100 ("USD") .deposit fx_key fx_env).1,
           (create_or_get_by_idempotency fx_store0 5 7 1 1 100 ("USD") .deposit fx_key fx_env).2)) :=
  ⟨by decide,
   c1_create_or_get_by_idempotency_spec.2.1 fx_store0 5 7 1 1 100 ("USD") .deposit fx_key fx_env
     (by decide),
   c1_create_or_get_by_idempotency_spec.2.2.1 fx_store0 5 6 7 1 1 1 1 100 250 ("USD") ("USD")
     .deposit .withdraw fx_key fx_env fx_env rfl⟩

/-! ## Settle-step lemmas shared by C2, C3 and C4 -/

theorem update_rows_find? (rows : List Transaction) (now : Time) (id : Uuid)
    (st : TransactionStatus) (fr : Option String)
    (h : rows.any (fun t => t.id == id) = true) :
    ∃ t', (rows.map (fun t => if t.id == id
          then { t with status := st, failure_reason := fr, updated_at := now } else t)).find?
        (fun t => t.id == id) = some t'
      ∧ t'.status = st ∧ t'.failure_reason = fr ∧ t'.id = id := by
  induction rows with
  | nil => simp at h
  | cons a rest ih =>
    simp only [List.map_cons]
    cases ha : (a.id == id) with
    | true =>
      refine ⟨{ a with status := st, failure_reason := fr, updated_at := now },
        ?_, rfl, rfl, eq_of_beq ha⟩
      rw [if_pos (by simp [ha])]
      exact List.find?_cons_of_pos _ (by simp [ha])
    | false =>
      have h' : rest.any (fun t => t.id == id) = true := by
        simp only [List.any_cons, ha, Bool.false_or] at h
        exact h
      obtain ⟨t', hf, hst, hfr, hid⟩ := ih h'
      refine ⟨t', ?_, hst, hfr, hid⟩
      rw [if_neg (by simp [ha]), List.find?_cons_of_neg _ (by simp [ha])]
      exact hf

theorem update_status_spec (store : TxStore) (now : Time) (id : Uuid)
    (st : TransactionStatus) (fr : Option String)
    (h : store.rows.any (fun t => t.id == id) = true) :
    ∃ s' t', update_status store now id st fr = .ok (s', t')
      ∧ t'.status = st ∧ t'.failure_reason = fr ∧ t'.id = id
      ∧ s'.rows = store.rows.map (fun t => if t.id == id
          then { t with status := st, failure_reason := fr, updated_at := now } else t) := by
  obtain ⟨t', hf, hst, hfr, hid⟩ := update_rows_find? store.rows now id st fr h
  refine ⟨{ store with rows := store.rows.map (fun t => if t.id == id
      then { t with status := st, failure_reason := fr, updated_at := now } else t) },
    t', ?_, hst, hfr, hid, rfl⟩
  simp only [update_status]
  rw [hf]

theorem update_status_ok_id {store : TxStore} {now : Time} {id : Uuid}
    {st : TransactionStatus} {fr : Option String} {s' : TxStore} {t' : Transaction}
    (h : update_status store now id st fr = .ok (s', t')) : t'.id = id := by
  simp only [update_status] at h
  cases hf : (store.rows.map (fun t => if t.id == id
      then { t with status := st, failure_reason := fr, updated_at := now } else t)).find?
      (fun t => t.id == id) with
  | none =>
    rw [hf] at h
    simp at h
  | some u =>
    rw [hf] at h
    have hp := List.find?_some hf
    simp only [Except.ok.injEq, Prod.mk.injEq] at h
    obtain ⟨_, rfl⟩ := h
    exact eq_of_beq hp

theorem settle_ok_id {store : TxStore} {now : Time} {id : Uuid}
    {pr : Except AppError Unit} {s' : TxStore} {t' : Transaction}
    (h : settle_post_result store now id pr = .ok (s', t')) : t'.id = id := by
  unfold settle_post_result at h
  cases pr with
  | ok u =>
    cases u
    exact update_status_ok_id h
  | error e => exact update_status_ok_id h

theorem create_or_get_mem (store : TxStore) (now : Time)
    (org f t : Uuid) (amt : Int) (cur : String) (kind : TransactionKind)
    (key : String) (env : Option String) :
    (create_or_get_by_idempotency store now org f t amt cur kind key env).2
      ∈ (create_or_get_by_idempotency store now org f t amt cur kind key env).1.rows := by
  unfold create_or_get_by_idempotency
  cases hfind : store.rows.find? (fun r => matches_triple r org env key) with
  | some txn =>
    simp only
    exact List.mem_of_find?_eq_some hfind
  | none => simp

theorem post_transaction_transport_error (env : String) (ledger : LedgerOutcome)
    (h : ledger = .timeoutExpired ∨ (∃ m, ledger = .connectError m)
      ∨ (∃ m, ledger = .requestError m)) :
    ∃ e, post_transaction env ledger = .error e := by
  unfold post_transaction
  cases henv : env_to_proto env with
  | error e => exact ⟨e, rfl⟩
  | ok n => rcases h with rfl | ⟨m, rfl⟩ | ⟨m, rfl⟩ <;> exact ⟨_, rfl⟩

/-! ## C2 — settle semantics of the money-movement operations -/

/-- Counterexample to C2: a ledger response with status `rejected` does
NOT set the intent to `failed` and does NOT surface a `BusinessLogic`
error — the deposit succeeds, leaving the intent `pending` with the
`BusinessLogic` display string recorded as the failure reason. -/
theorem c2_counterexample_rejected_leaves_pending :
    ((deposit_with_idempotency fx_accounts fx_store0 5 1 100 fx_key fx_ledger_rejected).toOption.map
        (fun r => (r.2.2.status, r.2.2.failure_reason)))
      = some (TransactionStatus.pending,
          some ("Business logic error: ledger post failed: insufficient funds")) := by
  rfl

/-- C2 (amended): in the shared settle step, a ledger post returning `Ok`
sets the intent to `posted`; a `rejected` ledger response produces a
`BusinessLogic` error inside the ledger client, but the settle step
treats EVERY error — rejection as well as transport/timeout — alike: the
intent is left `pending` with the error's display string recorded as the
failure reason, and no error is surfaced to the caller. -/
theorem c2_settle_ok_posted_err_pending :
    (∀ (env reason : String), env = "sandbox" ∨ env = "production" →
        post_transaction env (.response ("rejected") reason)
          = .error (.BusinessLogic ("ledger post failed: " ++ reason)))
      ∧ (∀ store now id, store.rows.any (fun t => t.id == id) = true →
          ∃ s' t', settle_post_result store now id (.ok ()) = .ok (s', t')
            ∧ t'.status = TransactionStatus.posted ∧ t'.failure_reason = none)
      ∧ (∀ store now id (e : AppError), store.rows.any (fun t => t.id == id) = true →
          ∃ s' t', settle_post_result store now id (.error e) = .ok (s', t')
            ∧ t'.status = TransactionStatus.pending
            ∧ t'.failure_reason = some e.message) := by
  refine ⟨?_, ?_, ?_⟩
  · intro env reason h
    rcases h with rfl | rfl <;> rfl
  · intro store now id h
    obtain ⟨s', t', hok, hst, hfr, _, _⟩ := update_status_spec store now id .posted none h
    exact ⟨s', t', hok, hst, hfr⟩
  · intro store now id e h
    obtain ⟨s', t', hok, hst, hfr, _, _⟩ :=
      update_status_spec store now id .pending (some e.message) h
    exact ⟨s', t', hok, hst, hfr⟩

/-- Witness for C2 at a one-row store with transaction id 0. -/
theorem c2_witness :
    (("sandbox" : String) = "sandbox" ∨ ("sandbox" : String) = "production"
      ∧ post_transaction ("sandbox") (.response ("rejected") ("no"))
        = .error (.BusinessLogic ("ledger post failed: no")))
    ∧ (fx_store1.rows.any (fun t => t.id == 0) = true
      ∧ ∃ s' t', settle_post_result fx_store1 9 0 (.error AppError.InsufficientFunds) = .ok (s', t')
        ∧ t'.status = TransactionStatus.pending
        ∧ t'.failure_reason = some (AppError.InsufficientFunds.message)) :=
  ⟨Or.inl rfl,
   by decide,
   c2_settle_ok_posted_err_pending.2.2 fx_store1 9 0 AppError.InsufficientFunds (by decide)⟩

/-! ## Service-level lemmas for C4 -/

theorem deposit_ok_durable (accounts : List Account) (store : TxStore) (now : Time)
    (id : Uuid) (amount : Int) (key : String) (ledger : LedgerOutcome)
    (res : TxStore × Account × Transaction)
    (h : deposit_with_idempotency accounts store now id amount key ledger = .ok res) :
    ∃ s₁, deposit_committed_store accounts store now id amount key = some s₁
      ∧ s₁.rows.any (fun t => t.id == res.2.2.id) = true := by
  unfold deposit_with_idempotency at h
  unfold deposit_committed_store
  split at h
  · simp at h
  · rename_i hkey
    rw [if_neg hkey]
    split at h
    · simp at h
    · rename_i account hfind
      simp only [hfind]
      split at h
      · simp at h
      · rename_i hstatus
        rw [if_neg hstatus]
        split at h
        · simp at h
        · rename_i org horg
          dsimp only at h
          split at h
          · rename_i s₂ t₂ hsettle
            simp only [Except.ok.injEq] at h
            subst h
            refine ⟨_, rfl, ?_⟩
            have hid := settle_ok_id hsettle
            refine List.any_eq_true.mpr ⟨_, create_or_get_mem store now org id id amount
              (account.currency.getD ("USD")) .deposit key
              (some (account.environment.getD ("sandbox"))), ?_⟩
            simp [hid]
          · simp at h

theorem deposit_transport_pending (accounts : List Account) (store : TxStore)
    (now : Time) (id : Uuid) (amount : Int) (key : String) (ledger : LedgerOutcome)
    (account : Account) (org : Uuid)
    (hkey : (trim_string key == "") = false)
    (hfind : accounts.find? (fun a => a.id == id) = some account)
    (hst : account.status = some AccountStatus.active)
    (horg : account.organization_id = some org)
    (htrans : ledger = .timeoutExpired ∨ (∃ m, ledger = .connectError m)
      ∨ (∃ m, ledger = .requestError m)) :
    ∃ s₂ t₂, deposit_with_idempotency accounts store now id amount key ledger
        = .ok (s₂, account, t₂)
      ∧ t₂.status = TransactionStatus.pending ∧ t₂.failure_reason.isSome = true := by
  unfold deposit_with_idempotency
  rw [if_neg (by simp [hkey])]
  simp only [hfind]
  rw [if_neg (by simp [hst])]
  simp only [horg]
  obtain ⟨e, hpost⟩ :=
    post_transaction_transport_error (account.environment.getD ("sandbox")) ledger htrans
  rw [hpost]
  have hmem := create_or_get_mem store now org id id amount
    (account.currency.getD ("USD")) .deposit key (some (account.environment.getD ("sandbox")))
  have hany : (create_or_get_by_idempotency store now org id id amount
      (account.currency.getD ("USD")) .deposit key
      (some (account.environment.getD ("sandbox")))).1.rows.any
        (fun t => t.id == (create_or_get_by_idempotency store now org id id amount
          (account.currency.getD ("USD")) .deposit key
          (some (account.environment.getD ("sandbox")))).2.id) = true :=
    List.any_eq_true.mpr ⟨_, hmem, by simp⟩
  obtain ⟨s', t', hok, hstat, hfr, _, _⟩ := update_status_spec _ now _ .pending
    (some e.message) hany
  simp only [settle_post_result]
  rw [hok]
  exact ⟨s', t', rfl, hstat, by rw [hfr]; rfl⟩

theorem withdraw_ok_durable (accounts : List Account) (store : TxStore) (now : Time)
    (id : Uuid) (amount : Int) (key : String) (ledger : LedgerOutcome)
    (res : TxStore × Account × Transaction)
    (h : withdraw_with_idempotency accounts store now id amount key ledger = .ok res) :
    ∃ s₁, withdraw_committed_store accounts store now id amount key = some s₁
      ∧ s₁.rows.any (fun t => t.id == res.2.2.id) = true := by
  unfold withdraw_with_idempotency at h
  unfold withdraw_committed_store
  split at h
  · simp at h
  · rename_i hkey
    rw [if_neg hkey]
    split at h
    · simp at h
    · rename_i account hfind
      simp only [hfind]
      split at h
      · simp at h
      · rename_i hstatus
        rw [if_neg hstatus]
        split at h
        · simp at h
        · rename_i org horg
          dsimp only at h
          split at h
          · rename_i s₂ t₂ hsettle
            simp only [Except.ok.injEq] at h
            subst h
            refine ⟨_, rfl, ?_⟩
            have hid := settle_ok_id hsettle
            refine List.any_eq_true.mpr ⟨_, create_or_get_mem store now org id id amount
              (account.currency.getD ("USD")) .withdraw key
              (some (account.environment.getD ("sandbox"))), ?_⟩
            simp [hid]
          · simp at h

theorem withdraw_transport_pending (accounts : List Account) (store : TxStore)
    (now : Time) (id : Uuid) (amount : Int) (key : String) (ledger : LedgerOutcome)
    (account : Account) (org : Uuid)
    (hkey : (trim_string key == "") = false)
    (hfind : accounts.find? (fun a => a.id == id) = some account)
    (hst : account.status = some AccountStatus.active)
    (horg : account.organization_id = some org)
    (htrans : ledger = .timeoutExpired ∨ (∃ m, ledger = .connectError m)
      ∨ (∃ m, ledger = .requestError m)) :
    ∃ s₂ t₂, withdraw_with_idempotency accounts store now id amount key ledger
        = .ok (s₂, account, t₂)
      ∧ t₂.status = TransactionStatus.pending ∧ t₂.failure_reason.isSome = true := by
  unfold withdraw_with_idempotency
  rw [if_neg (by simp [hkey])]
  simp only [hfind]
  rw [if_neg (by simp [hst])]
  simp only [horg]
  obtain ⟨e, hpost⟩ :=
    post_transaction_transport_error (account.environment.getD ("sandbox")) ledger htrans
  rw [hpost]
  have hmem := create_or_get_mem store now org id id amount
    (account.currency.getD ("USD")) .withdraw key (some (account.environment.getD ("sandbox")))
  have hany : (create_or_get_by_idempotency store now org id id amount
      (account.currency.getD ("USD")) .withdraw key
      (some (account.environment.getD ("sandbox")))).1.rows.any
        (fun t => t.id == (create_or_get_by_idempotency store now org id id amount
          (account.currency.getD ("USD")) .withdraw key
          (some (account.environment.getD ("sandbox")))).2.id) = true :=
    List.any_eq_true.mpr ⟨_, hmem, by simp⟩
  obtain ⟨s', t', hok, hstat, hfr, _, _⟩ := update_status_spec _ now _ .pending
    (some e.message) hany
  simp only [settle_post_result]
  rw [hok]
  exact ⟨s', t', rfl, hstat, by rw [hfr]; rfl⟩

theorem transfer_ok_durable (accounts : List Account) (store : TxStore) (now : Time)
    (from_id to_id : Uuid) (amount : Int) (key : String) (ledger : LedgerOutcome)
    (res : TxStore × Account × Account × Transaction)
    (h : transfer_with_idempotency accounts store now from_id to_id amount key ledger
      = .ok res) :
    ∃ s₁, transfer_committed_store accounts store now from_id to_id amount key = some s₁
      ∧ s₁.rows.any (fun t => t.id == res.2.2.2.id) = true := by
  unfold transfer_with_idempotency at h
  unfold transfer_committed_store
  split at h
  · simp at h
  · rename_i hkey
    rw [if_neg hkey]
    split at h
    · simp at h
    · rename_i from_account hfind_from
      simp only [hfind_from]
      split at h
      · simp at h
      · rename_i hst_from
        rw [if_neg hst_from]
        split at h
        · simp at h
        · rename_i to_account hfind_to
          try simp only [hfind_to]
          split at h
          · simp at h
          · rename_i hst_to
            rw [if_neg hst_to]
            split at h
            · simp at h
            · rename_i from_org horg_from
              split at h
              · simp at h
              · rename_i to_org horg_to
                split at h
                · simp at h
                · rename_i horgeq
                  rw [if_neg horgeq]
                  dsimp only at h
                  split at h
                  · simp at h
                  · rename_i hcur
                    rw [if_neg hcur]
                    try dsimp only at h
                    split at h
                    · rename_i s₂ t₂ hsettle
                      simp only [Except.ok.injEq] at h
                      subst h
                      refine ⟨_, rfl, ?_⟩
                      have hid := settle_ok_id hsettle
                      refine List.any_eq_true.mpr ⟨_,
                        create_or_get_mem store now from_org from_id to_id amount
                          (from_account.currency.getD ("USD")) .transfer key
                          (some (from_account.environment.getD ("sandbox"))), ?_⟩
                      simp [hid]
                    · simp at h

theorem transfer_transport_pending (accounts : List Account) (store : TxStore)
    (now : Time) (from_id to_id : Uuid) (amount : Int) (key : String)
    (ledger : LedgerOutcome) (from_account to_account : Account) (org : Uuid)
    (hkey : (trim_string key == "") = false)
    (hfind_from : accounts.find? (fun a => a.id == from_id) = some from_account)
    (hst_from : from_account.status = some AccountStatus.active)
    (hfind_to : accounts.find? (fun a => a.id == to_id) = some to_account)
    (hst_to : to_account.status = some AccountStatus.active)
    (horg_from : from_account.organization_id = some org)
    (horg_to : to_account.organization_id = some org)
    (hcur : from_account.currency.getD ("USD") = to_account.currency.getD ("USD"))
    (htrans : ledger = .timeoutExpired ∨ (∃ m, ledger = .connectError m)
      ∨ (∃ m, ledger = .requestError m)) :
    ∃ s₂ t₂, transfer_with_idempotency accounts store now from_id to_id amount key ledger
        = .ok (s₂, from_account, to_account, t₂)
      ∧ t₂.status = TransactionStatus.pending ∧ t₂.failure_reason.isSome = true := by
  unfold transfer_with_idempotency
  rw [if_neg (by simp [hkey])]
  simp only [hfind_from]
  rw [if_neg (by simp [hst_from])]
  simp only [hfind_to]
  rw [if_neg (by simp [hst_to])]
  simp only [horg_from, horg_to]
  rw [if_neg (by simp)]
  rw [if_neg (by simp [hcur])]
  obtain ⟨e, hpost⟩ :=
    post_transaction_transport_error (from_account.environment.getD ("sandbox")) ledger htrans
  rw [hpost]
  have hmem := create_or_get_mem store now org from_id to_id amount
    (from_account.currency.getD ("USD")) .transfer key
    (some (from_account.environment.getD ("sandbox")))
  have hany : (create_or_get_by_idempotency store now org from_id to_id amount
      (from_account.currency.getD ("USD")) .transfer key
      (some (from_account.environment.getD ("sandbox")))).1.rows.any
        (fun t => t.id == (create_or_get_by_idempotency store now org from_id to_id amount
          (from_account.currency.getD ("USD")) .transfer key
          (some (from_account.environment.getD ("sandbox")))).2.id) = true :=
    List.any_eq_true.mpr ⟨_, hmem, by simp⟩
  obtain ⟨s', t', hok, hstat, hfr, _, _⟩ := update_status_spec _ now _ .pending
    (some e.message) hany
  simp only [settle_post_result]
  rw [hok]
  exact ⟨s', t', rfl, hstat, by rw [hfr]; rfl⟩

theorem appError_status_not_2xx (e : AppError) :
    ¬(200 ≤ e.status_code ∧ e.status_code < 300) := by
  cases e <;> simp [AppError.status_code]

/-! ## C4 — intent durability and 200-on-unreachable -/

/-- C4: a money-movement request answered 2xx carries a transaction id
that was committed by the idempotency engine BEFORE the outbound ledger
call (`*_committed_store` is a function of the request alone, not of the
ledger outcome); and when the ledger call times out or is unreachable the
handler still answers HTTP 200, returning the intent with status
`pending` and the reason recorded.  Stated for all three handlers. -/
theorem c4_intent_durability_and_unreachable_200 :
    (∀ accounts store now headers id amount ledger,
        200 ≤ http_status (deposit_handler accounts store now headers id amount ledger) →
        http_status (deposit_handler accounts store now headers id amount ledger) < 300 →
        ∃ res key s₁,
          deposit_handler accounts store now headers id amount ledger = .ok res
            ∧ get_idempotency_key headers = some key
            ∧ deposit_committed_store accounts store now id amount key = some s₁
            ∧ s₁.rows.any (fun t => t.id == res.2.2.id) = true)
      ∧ (∀ accounts store now headers id amount ledger,
          200 ≤ http_status (withdraw_handler accounts store now headers id amount ledger) →
          http_status (withdraw_handler accounts store now headers id amount ledger) < 300 →
          ∃ res key s₁,
            withdraw_handler accounts store now headers id amount ledger = .ok res
              ∧ get_idempotency_key headers = some key
              ∧ withdraw_committed_store accounts store now id amount key = some s₁
              ∧ s₁.rows.any (fun t => t.id == res.2.2.id) = true)
      ∧ (∀ accounts store now headers from_id to_id amount ledger,
          200 ≤ http_status
            (transfer_handler accounts store now headers from_id to_id amount ledger) →
          http_status
            (transfer_handler accounts store now headers from_id to_id amount ledger) < 300 →
          ∃ res key s₁,
            transfer_handler accounts store now headers from_id to_id amount ledger = .ok res
              ∧ get_idempotency_key headers = some key
              ∧ transfer_committed_store accounts store now from_id to_id amount key = some s₁
              ∧ s₁.rows.any (fun t => t.id == res.2.2.2.id) = true)
      ∧ (∀ accounts store now headers id amount ledger key account org,
          get_idempotency_key headers = some key →
          (trim_string key == "") = false →
          0 < amount →
          accounts.find? (fun a => a.id == id) = some account →
          account.status = some AccountStatus.active →
          account.organization_id = some org →
          (ledger = .timeoutExpired ∨ (∃ m, ledger = .connectError m)
            ∨ (∃ m, ledger = .requestError m)) →
          http_status (deposit_handler accounts store now headers id amount ledger) = 200
            ∧ ∃ res, deposit_handler accounts store now headers id amount ledger = .ok res
              ∧ res.2.2.status = TransactionStatus.pending
              ∧ res.2.2.failure_reason.isSome = true)
      ∧ (∀ accounts store now headers id amount ledger key account org,
          get_idempotency_key headers = some key →
          (trim_string key == "") = false →
          0 < amount →
          accounts.find? (fun a => a.id == id) = some account →
          account.status = some AccountStatus.active →
          account.organization_id = some org →
          (ledger = .timeoutExpired ∨ (∃ m, ledger = .connectError m)
            ∨ (∃ m, ledger = .requestError m)) →
          http_status (withdraw_handler accounts store now headers id amount ledger) = 200
            ∧ ∃ res, withdraw_handler accounts store now headers id amount ledger = .ok res
              ∧ res.2.2.status = TransactionStatus.pending
              ∧ res.2.2.failure_reason.isSome = true)
      ∧ (∀ accounts store now headers from_id to_id amount ledger key
            from_account to_account org,
          get_idempotency_key headers = some key →
          (trim_string key == "") = false →
          0 < amount →
          accounts.find? (fun a => a.id == from_id) = some from_account →
          from_account.status = some AccountStatus.active →
          accounts.find? (fun a => a.id == to_id) = some to_account →
          to_account.status = some AccountStatus.active →
          from_account.organization_id = some org →
          to_account.organization_id = some org →
          from_account.currency.getD ("USD") = to_account.currency.getD ("USD") →
          (ledger = .timeoutExpired ∨ (∃ m, ledger = .connectError m)
            ∨ (∃ m, ledger = .requestError m)) →
          http_status
              (transfer_handler accounts store now headers from_id to_id amount ledger) = 200
            ∧ ∃ res,
              transfer_handler accounts store now headers from_id to_id amount ledger = .ok res
                ∧ res.2.2.2.status = TransactionStatus.pending
                ∧ res.2.2.2.failure_reason.isSome = true) := by
  refine ⟨?_, ?_, ?_, ?_, ?_, ?_⟩
  · intro accounts store now headers id amount ledger h2 h3
    cases hh : deposit_handler accounts store now headers id amount ledger with
    | error e =>
      rw [hh] at h2 h3
      exact absurd ⟨h2, h3⟩ (appError_status_not_2xx e)
    | ok res =>
      refine ⟨res, ?_⟩
      have hh' := hh
      unfold deposit_handler at hh
      dsimp only at hh
      split at hh
      · simp at hh
      · rename_i key hkey
        split at hh
        · simp at hh
        · obtain ⟨s₁, hc, ha⟩ := deposit_ok_durable _ _ _ _ _ _ _ _ hh
          exact ⟨key, s₁, rfl, hkey, hc, ha⟩
  · intro accounts store now headers id amount ledger h2 h3
    cases hh : withdraw_handler accounts store now headers id amount ledger with
    | error e =>
      rw [hh] at h2 h3
      exact absurd ⟨h2, h3⟩ (appError_status_not_2xx e)
    | ok res =>
      refine ⟨res, ?_⟩
      have hh' := hh
      unfold withdraw_handler at hh
      dsimp only at hh
      split at hh
      · simp at hh
      · rename_i key hkey
        split at hh
        · simp at hh
        · obtain ⟨s₁, hc, ha⟩ := withdraw_ok_durable _ _ _ _ _ _ _ _ hh
          exact ⟨key, s₁, rfl, hkey, hc, ha⟩
  · intro accounts store now headers from_id to_id amount ledger h2 h3
    cases hh : transfer_handler accounts store now headers from_id to_id amount ledger with
    | error e =>
      rw [hh] at h2 h3
      exact absurd ⟨h2, h3⟩ (appError_status_not_2xx e)
    | ok res =>
      refine ⟨res, ?_⟩
      have hh' := hh
      unfold transfer_handler at hh
      dsimp only at hh
      split at hh
      · simp at hh
      · rename_i key hkey
        split at hh
        · simp at hh
        · obtain ⟨s₁, hc, ha⟩ := transfer_ok_durable _ _ _ _ _ _ _ _ _ hh
          exact ⟨key, s₁, rfl, hkey, hc, ha⟩
  · intro accounts store now headers id amount ledger key account org
      hgetkey hkey hamt hfind hst horg htrans
    obtain ⟨s₂, t₂, hok, hstat, hfr⟩ := deposit_transport_pending accounts store now id amount
      key ledger account org hkey hfind hst horg htrans
    have hhandler : deposit_handler accounts store now headers id amount ledger
        = .ok (s₂, account, t₂) := by
      unfold deposit_handler
      dsimp only
      simp only [hgetkey]
      rw [if_neg (by omega : ¬ amount ≤ 0)]
      exact hok
    rw [hhandler]
    exact ⟨rfl, (s₂, account, t₂), rfl, hstat, hfr⟩
  · intro accounts store now headers id amount ledger key account org
      hgetkey hkey hamt hfind hst horg htrans
    obtain ⟨s₂, t₂, hok, hstat, hfr⟩ := withdraw_transport_pending accounts store now id amount
      key ledger account org hkey hfind hst horg htrans
    have hhandler : withdraw_handler accounts store now headers id amount ledger
        = .ok (s₂, account, t₂) := by
      unfold withdraw_handler
      dsimp only
      simp only [hgetkey]
      rw [if_neg (by omega : ¬ amount ≤ 0)]
      exact hok
    rw [hhandler]
    exact ⟨rfl, (s₂, account, t₂), rfl, hstat, hfr⟩
  · intro accounts store now headers from_id to_id amount ledger key from_account to_account org
      hgetkey hkey hamt hfind_from hst_from hfind_to hst_to horg_from horg_to hcur htrans
    obtain ⟨s₂, t₂, hok, hstat, hfr⟩ := transfer_transport_pending accounts store now
      from_id to_id amount key ledger from_account to_account org hkey hfind_from hst_from
      hfind_to hst_to horg_from horg_to hcur htrans
    have hhandler : transfer_handler accounts store now headers from_id to_id amount ledger
        = .ok (s₂, from_account, to_account, t₂) := by
      unfold transfer_handler
      dsimp only
      simp only [hgetkey]
      rw [if_neg (by omega : ¬ amount ≤ 0)]
      exact hok
    rw [hhandler]
    exact ⟨rfl, (s₂, from_account, to_account, t₂), rfl, hstat, hfr⟩

/-- Witness for C4: the deposit handler at the concrete account/store
fixtures, once with a posting ledger (2xx, durable committed intent) and
once with a timing-out ledger (HTTP 200, pending intent with a recorded
reason). -/
theorem c4_witness :
    ((200 ≤ http_status (deposit_handler fx_accounts fx_store0 5 fx_headers 1 100 fx_ledger_posted)
        ∧ http_status (deposit_handler fx_accounts fx_store0 5 fx_headers 1 100 fx_ledger_posted) < 300)
      ∧ ∃ res key s₁,
          deposit_handler fx_accounts fx_store0 5 fx_headers 1 100 fx_ledger_posted = .ok res
            ∧ get_idempotency_key fx_headers = some key
            ∧ deposit_committed_store fx_accounts fx_store0 5 1 100 key = some s₁
            ∧ s₁.rows.any (fun t => t.id == res.2.2.id) = true)
    ∧ ((get_idempotency_key fx_headers = some fx_key
        ∧ (trim_string fx_key == "") = false
        ∧ (0 : Int) < 100
        ∧ fx_accounts.find? (fun a => a.id == 1) = some fx_account
        ∧ fx_account.status = some AccountStatus.active
        ∧ fx_account.organization_id = some 7)
      ∧ http_status (deposit_handler fx_accounts fx_store0 5 fx_headers 1 100 .timeoutExpired) = 200
      ∧ ∃ res, deposit_handler fx_accounts fx_store0 5 fx_headers 1 100 .timeoutExpired = .ok res
          ∧ res.2.2.status = TransactionStatus.pending
          ∧ res.2.2.failure_reason.isSome = true) :=
  ⟨⟨⟨by decide, by decide⟩,
    c4_intent_durability_and_unreachable_200.1 fx_accounts fx_store0 5 fx_headers 1 100
      fx_ledger_posted (by decide) (by decide)⟩,
   ⟨by decide,
    c4_intent_durability_and_unreachable_200.2.2.2.1 fx_accounts fx_store0 5 fx_headers 1 100
      .timeoutExpired fx_key fx_account 7 (by decide) (by decide) (by decide) (by decide)
      (by decide) (by decide) (Or.inl rfl)⟩⟩

/-! ## C3 — the terminal-sink invariant fails on idempotent replay -/

/-- C3 failing input, evaluated: the first deposit (key `K1`) posts and
leaves row 0 with status `posted`; replaying the same deposit while the
ledger times out re-posts and unconditionally updates the SAME row 0 back
to `pending` with a failure reason — a `posted` transaction is mutated,
contradicting the terminal-sink claim. -/
theorem c3_posted_row_mutated_on_replay :
    fx_dep1.toOption.map (fun r => (r.2.2.id, r.2.2.status)) = some (0, TransactionStatus.posted)
      ∧ fx_store1.rows.map (fun t => (t.id, t.status)) = [(0, TransactionStatus.posted)]
      ∧ fx_dep2.toOption.map (fun r => (r.2.2.id, r.2.2.status))
        = some (0, TransactionStatus.pending)
      ∧ fx_store2.rows.map (fun t => (t.id, t.status, t.failure_reason))
        = [(0, TransactionStatus.pending,
            some ("Internal server error: ledger gRPC post timeout expired"))] := by
  refine ⟨rfl, rfl, rfl, rfl⟩

/-! ## Password-reset lemmas for C5 and C9 -/

namespace Users

theorem mem_mark_used_eq {p : PasswordResetToken → Bool} {n : Time}
    {ts : List PasswordResetToken} {t' : PasswordResetToken}
    (h : t' ∈ mark_used p n ts) :
    ∃ t ∈ ts, t' = (if p t = true then { t with used_at := some n } else t) := by
  obtain ⟨t, ht, heq⟩ := List.mem_map.mp h
  exact ⟨t, ht, heq.symm⟩

theorem mem_mark_used {p : PasswordResetToken → Bool} {n : Time}
    {ts : List PasswordResetToken} {t' : PasswordResetToken}
    (h : t' ∈ mark_used p n ts) :
    ∃ t ∈ ts, t'.token_hash = t.token_hash ∧ t'.expires_at = t.expires_at
      ∧ (t.used_at ≠ none → t'.used_at ≠ none) := by
  obtain ⟨t, ht, heq⟩ := mem_mark_used_eq h
  by_cases hp : p t = true
  · rw [if_pos hp] at heq
    exact ⟨t, ht, by rw [heq], by rw [heq], by rw [heq]; intro _; simp⟩
  · rw [if_neg hp] at heq
    exact ⟨t, ht, by rw [heq], by rw [heq], by rw [heq]; exact fun hx => hx⟩

theorem deadHash_mono {tokens : List PasswordResetToken} {h : String} {n n' : Time}
    (hd : DeadHash tokens h n) (hle : n ≤ n') : DeadHash tokens h n' := by
  intro t ht hh
  rcases hd t ht hh with hu | he
  · exact Or.inl hu
  · exact Or.inr (Nat.lt_of_lt_of_le he hle)

theorem deadHash_mark_used {tokens : List PasswordResetToken} {h : String} {n : Time}
    (hd : DeadHash tokens h n) (p : PasswordResetToken → Bool) (m : Time) :
    DeadHash (mark_used p m tokens) h n := by
  intro t' ht' hh
  obtain ⟨t, ht, hhash, hexp, hused⟩ := mem_mark_used ht'
  rcases hd t ht (by rw [← hhash]; exact hh) with hu | he
  · exact Or.inl (hused hu)
  · exact Or.inr (by rw [hexp]; exact he)

theorem reset_password_tokens_shape (db : UsersDb) (now : Time)
    (sha256 : String → String) (argon2_hash token new_password : String) :
    (reset_password db now sha256 argon2_hash token new_password).1.password_reset_tokens
        = db.password_reset_tokens
      ∨ ∃ p₁ p₂,
        (reset_password db now sha256 argon2_hash token new_password).1.password_reset_tokens
          = mark_used p₂ now (mark_used p₁ now db.password_reset_tokens) := by
  unfold reset_password
  split
  · exact Or.inl rfl
  · unfold claim_token
    dsimp only
    split
    · exact Or.inl rfl
    · exact Or.inr ⟨_, _, rfl⟩

theorem reset_preserves_dead {db : UsersDb} {now : Time}
    {sha256 : String → String} {argon2_hash token new_password : String}
    {h : String} {n₀ : Time}
    (hd : DeadHash db.password_reset_tokens h n₀) (hle : n₀ ≤ now) :
    DeadHash (reset_password db now sha256 argon2_hash
      token new_password).1.password_reset_tokens h now := by
  rcases reset_password_tokens_shape db now sha256 argon2_hash token new_password with
    heq | ⟨p₁, p₂, heq⟩
  · rw [heq]
    exact deadHash_mono hd hle
  · rw [heq]
    exact deadHash_mark_used (deadHash_mark_used (deadHash_mono hd hle) p₁ now) p₂ now

theorem reset_fails_of_dead {db : UsersDb} {now : Time}
    {sha256 : String → String} {argon2_hash token new_password : String}
    (hd : DeadHash db.password_reset_tokens (sha256 token) now) :
    (reset_password db now sha256 argon2_hash token new_password).2.isOk = false := by
  unfold reset_password
  split
  · rfl
  · unfold claim_token
    dsimp only
    have hnone : db.password_reset_tokens.find? (claimable now (sha256 token)) = none := by
      rw [List.find?_eq_none]
      intro t ht hc
      unfold claimable at hc
      simp only [Bool.and_eq_true, beq_iff_eq, decide_eq_true_eq] at hc
      obtain ⟨⟨hh, hu⟩, he⟩ := hc
      rcases hd t ht hh with hu' | he'
      · exact hu' hu
      · exact absurd he (Nat.not_le.mpr he')
    rw [hnone]
    rfl

theorem reset_password_success_shape {db : UsersDb} {now : Time}
    {sha256 : String → String} {argon2_hash token new_password : String}
    {db' : UsersDb} {m : String}
    (h : reset_password db now sha256 argon2_hash token new_password = (db', .ok m)) :
    ∃ t₀ ∈ db.password_reset_tokens, claimable now (sha256 token) t₀ = true
      ∧ db'.password_reset_tokens
        = mark_used (fun t => t.user_id == t₀.user_id && !(t.id == t₀.id)
              && t.used_at == none) now
            (mark_used (claimable now (sha256 token)) now db.password_reset_tokens) := by
  unfold reset_password at h
  split at h
  · simp at h
  · unfold claim_token at h
    dsimp only at h
    split at h
    · simp at h
    · rename_i token_id user_id heq
      cases hf : db.password_reset_tokens.find? (claimable now (sha256 token)) with
      | none =>
        rw [hf] at heq
        simp at heq
      | some t₀ =>
        rw [hf] at heq
        have hids : t₀.id = token_id ∧ t₀.user_id = user_id := by
          have : some (t₀.id, t₀.user_id) = some (token_id, user_id) := heq
          simp only [Option.some.injEq, Prod.mk.injEq] at this
          exact this
        refine ⟨t₀, List.mem_of_find?_eq_some hf, List.find?_some hf, ?_⟩
        have hdb : db'.password_reset_tokens
            = mark_used (fun t => t.user_id == user_id && !(t.id == token_id)
                && t.used_at == none) now
              (mark_used (claimable now (sha256 token)) now db.password_reset_tokens) := by
          simp only [Prod.mk.injEq] at h
          rw [← h.1]
        rw [hdb, hids.1, hids.2]

theorem reset_success_dead {db : UsersDb} {now : Time}
    {sha256 : String → String} {argon2_hash token new_password : String}
    (h : (reset_password db now sha256 argon2_hash token new_password).2.isOk = true) :
    DeadHash (reset_password db now sha256 argon2_hash
      token new_password).1.password_reset_tokens (sha256 token) now := by
  rcases hr : reset_password db now sha256 argon2_hash token new_password with ⟨db', r⟩
  cases r with
  | error e =>
    rw [hr] at h
    simp [Except.isOk, Except.toBool] at h
  | ok m =>
    obtain ⟨t₀, ht₀, hc₀, htok⟩ := reset_password_success_shape hr
    show DeadHash db'.password_reset_tokens (sha256 token) now
    rw [htok]
    intro t' ht' hh
    obtain ⟨t₁, ht₁, heq₁⟩ := mem_mark_used_eq ht'
    obtain ⟨t, ht, heq₂⟩ := mem_mark_used_eq ht₁
    by_cases hu : t.used_at = none
    · by_cases hc : claimable now (sha256 token) t = true
      · have h1 : t₁.used_at = some now := by
          rw [heq₂, if_pos hc]
        refine Or.inl ?_
        rw [heq₁]
        by_cases hq : (fun tt => tt.user_id == t₀.user_id && !(tt.id == t₀.id)
            && tt.used_at == none) t₁ = true
        · rw [if_pos hq]
          simp
        · rw [if_neg hq]
          rw [h1]
          simp
      · have hh' : t.token_hash = sha256 token := by
          have e1 : t'.token_hash = t₁.token_hash := by
            rw [heq₁]
            by_cases hq : (fun tt => tt.user_id == t₀.user_id && !(tt.id == t₀.id)
                && tt.used_at == none) t₁ = true
            · rw [if_pos hq]
            · rw [if_neg hq]
          have e2 : t₁.token_hash = t.token_hash := by
            rw [heq₂, if_neg hc]
          rw [← e2, ← e1]
          exact hh
        have hcb := hc
        unfold claimable at hcb
        simp only [Bool.and_eq_true, beq_iff_eq, decide_eq_true_eq] at hcb
        push_neg at hcb
        have hlt : t.expires_at < now := hcb ⟨hh', hu⟩
        have e3 : t'.expires_at = t.expires_at := by
          have e1 : t'.expires_at = t₁.expires_at := by
            rw [heq₁]
            by_cases hq : (fun tt => tt.user_id == t₀.user_id && !(tt.id == t₀.id)
                && tt.used_at == none) t₁ = true
            · rw [if_pos hq]
            · rw [if_neg hq]
          have e2 : t₁.expires_at = t.expires_at := by
            rw [heq₂, if_neg hc]
          rw [e1, e2]
        refine Or.inr ?_
        rw [e3]
        exact hlt
    · refine Or.inl ?_
      have h2 : t₁.used_at ≠ none := by
        rw [heq₂]
        by_cases hcx : claimable now (sha256 token) t = true
        · rw [if_pos hcx]
          simp
        · rw [if_neg hcx]
          exact hu
      rw [heq₁]
      by_cases hq : (fun tt => tt.user_id == t₀.user_id && !(tt.id == t₀.id)
          && tt.used_at == none) t₁ = true
      · rw [if_pos hq]
        simp
      · rw [if_neg hq]
        exact h2

theorem reset_succeeds_of_claimable {db : UsersDb} {now : Time}
    {sha256 : String → String} {argon2_hash token new_password : String}
    (hpw : 8 ≤ new_password.utf8ByteSize)
    (hc : ∃ t ∈ db.password_reset_tokens, claimable now (sha256 token) t = true) :
    (reset_password db now sha256 argon2_hash token new_password).2.isOk = true := by
  unfold reset_password
  rw [if_neg (by omega : ¬ new_password.utf8ByteSize < 8)]
  unfold claim_token
  dsimp only
  cases hf : db.password_reset_tokens.find? (claimable now (sha256 token)) with
  | none =>
    obtain ⟨t, ht, hct⟩ := hc
    exact absurd hct (List.find?_eq_none.mp hf t ht)
  | some t₀ => rfl

theorem reset_step_eq (sha256 : String → String) (db : UsersDb) (c : ResetCall) :
    reset_step sha256 db c
      = ((reset_password db c.now sha256 c.argon2_hash c.token c.new_password).1,
         (reset_password db c.now sha256 c.argon2_hash c.token c.new_password).2.isOk) := by
  unfold reset_step
  rcases h : reset_password db c.now sha256 c.argon2_hash c.token c.new_password with ⟨db', r⟩
  cases r <;> simp [Except.isOk, Except.toBool]

theorem run_resets_dead (sha256 : String → String) (t : String) :
    ∀ (calls : List ResetCall) (db : UsersDb) (n₀ : Time),
      DeadHash db.password_reset_tokens (sha256 t) n₀ →
      (∀ c ∈ calls, n₀ ≤ c.now) →
      List.Pairwise (fun a b : ResetCall => a.now ≤ b.now) calls →
      success_count_for t (run_resets sha256 db calls) = 0 := by
  intro calls
  induction calls with
  | nil =>
    intro db n₀ _ _ _
    rfl
  | cons c rest ih =>
    intro db n₀ hd hle hpair
    have hdc : DeadHash db.password_reset_tokens (sha256 t) c.now :=
      deadHash_mono hd (hle c (by simp))
    rw [run_resets]
    rw [reset_step_eq]
    unfold success_count_for
    rw [List.countP_cons]
    have hrest : success_count_for t (run_resets sha256
        (reset_password db c.now sha256 c.argon2_hash c.token c.new_password).1 rest) = 0 := by
      refine ih _ c.now ?_ ?_ (List.Pairwise.sublist (List.sublist_cons_self c rest) hpair)
      · exact reset_preserves_dead hdc (Nat.le_refl c.now)
      · intro b hb
        exact (List.pairwise_cons.mp hpair).1 b hb
    unfold success_count_for at hrest
    rw [hrest]
    by_cases htok : c.token = t
    · have hfail : (reset_password db c.now sha256 c.argon2_hash c.token
          c.new_password).2.isOk = false := by
        refine reset_fails_of_dead ?_
        rw [htok]
        exact hdc
      simp [hfail]
    · simp [htok]

/-! ## C5 — password-reset tokens are single-use -/

/-- C5: across any sequence of reset calls with nondecreasing timestamps,
at most one call with a given token succeeds (the atomic claim uses up
every claimable row of that token hash, and `used_at` is never cleared);
a call finding no claimable row — unknown, expired or used token — gets
the generic `BadRequest("Invalid or expired reset token")` with storage
untouched; and of two sequential consumers of one claimable token exactly
one succeeds. -/
theorem c5_password_reset_single_use :
    (∀ (sha256 : String → String) (db : UsersDb) (calls : List ResetCall) (t : String),
        List.Pairwise (fun a b : ResetCall => a.now ≤ b.now) calls →
        success_count_for t (run_resets sha256 db calls) ≤ 1)
      ∧ (∀ (sha256 : String → String) (db : UsersDb) (now : Time)
            (token new_password argon2_hash : String),
          8 ≤ new_password.utf8ByteSize →
          (∀ r ∈ db.password_reset_tokens, claimable now (sha256 token) r = false) →
          reset_password db now sha256 argon2_hash token new_password
            = (db, .error (.BadRequest "Invalid or expired reset token")))
      ∧ (∀ (sha256 : String → String) (db : UsersDb) (n₁ n₂ : Time)
            (token pw₁ pw₂ ah₁ ah₂ : String),
          n₁ ≤ n₂ →
          8 ≤ pw₁.utf8ByteSize →
          8 ≤ pw₂.utf8ByteSize →
          (∃ r ∈ db.password_reset_tokens, claimable n₁ (sha256 token) r = true) →
          (reset_password db n₁ sha256 ah₁ token pw₁).2.isOk = true
            ∧ (reset_password (reset_password db n₁ sha256 ah₁ token pw₁).1
                n₂ sha256 ah₂ token pw₂).2.isOk = false) := by
  refine ⟨?_, ?_, ?_⟩
  · intro sha256 db calls t hpair
    induction calls generalizing db with
    | nil => simp [run_resets, success_count_for]
    | cons c rest ih =>
      rw [run_resets, reset_step_eq]
      unfold success_count_for
      rw [List.countP_cons]
      by_cases hsucc : (c.token == t
          && (reset_password db c.now sha256 c.argon2_hash c.token c.new_password).2.isOk) = true
      · simp only [Bool.and_eq_true, beq_iff_eq] at hsucc
        obtain ⟨htok, hok⟩ := hsucc
        have hdead : DeadHash (reset_password db c.now sha256 c.argon2_hash c.token
            c.new_password).1.password_reset_tokens (sha256 t) c.now := by
          rw [← htok]
          exact reset_success_dead hok
        have hzero := run_resets_dead sha256 t rest
          (reset_password db c.now sha256 c.argon2_hash c.token c.new_password).1 c.now
          hdead (fun b hb => (List.pairwise_cons.mp hpair).1 b hb)
          (List.Pairwise.sublist (List.sublist_cons_self c rest) hpair)
        unfold success_count_for at hzero
        rw [hzero]
        have hcond : (c.token == t
            && (reset_password db c.now sha256 c.argon2_hash c.token
              c.new_password).2.isOk) = true := by
          rw [hok]
          simp [htok]
        rw [if_pos hcond]
      · have hc0 : (if (c.token == t
            && (reset_password db c.now sha256 c.argon2_hash c.token
              c.new_password).2.isOk) = true then 1 else 0) = 0 := by
          rw [if_neg hsucc]
        rw [hc0]
        have := ih (reset_password db c.now sha256 c.argon2_hash c.token c.new_password).1
          (List.Pairwise.sublist (List.sublist_cons_self c rest) hpair)
        unfold success_count_for at this
        omega
  · intro sha256 db now token new_password argon2_hash hpw hnone
    unfold reset_password
    rw [if_neg (by omega : ¬ new_password.utf8ByteSize < 8)]
    unfold claim_token
    dsimp only
    have hf : db.password_reset_tokens.find? (claimable now (sha256 token)) = none := by
      rw [List.find?_eq_none]
      intro r hr hc
      rw [hnone r hr] at hc
      exact absurd hc (by simp)
    rw [hf]
    rfl
  · intro sha256 db n₁ n₂ token pw₁ pw₂ ah₁ ah₂ hle hpw₁ hpw₂ hclaim
    have hok₁ := @reset_succeeds_of_claimable db n₁ sha256 ah₁ token pw₁ hpw₁ hclaim
    refine ⟨hok₁, ?_⟩
    have hdead := reset_success_dead hok₁
    exact reset_fails_of_dead (deadHash_mono hdead hle)

/-- Witness for C5: the one-token store; two same-token calls at times
10 then 20 — the first succeeds, the second gets the generic error; a run
of those two calls has success count at most 1. -/
theorem c5_witness :
    (List.Pairwise (fun a b : ResetCall => a.now ≤ b.now)
        [{ now := 10, token := "T1", new_password := "longenough", argon2_hash := "H1" },
         { now := 20, token := "T1", new_password := "longenough", argon2_hash := "H2" }]
      ∧ success_count_for ("T1") (run_resets Rails.fx_sha Rails.fx_users_db
          [{ now := 10, token := "T1", new_password := "longenough", argon2_hash := "H1" },
           { now := 20, token := "T1", new_password := "longenough", argon2_hash := "H2" }]) ≤ 1)
    ∧ ((10 : Time) ≤ 20
      ∧ (∃ r ∈ Rails.fx_users_db.password_reset_tokens, claimable 10 (Rails.fx_sha ("T1")) r = true)
      ∧ (reset_password Rails.fx_users_db 10 Rails.fx_sha ("H1") ("T1") ("longenough")).2.isOk = true
      ∧ (reset_password (reset_password Rails.fx_users_db 10 Rails.fx_sha ("H1") ("T1")
          ("longenough")).1 20 Rails.fx_sha ("H2") ("T1") ("longenough")).2.isOk = false) :=
  ⟨⟨by decide,
    c5_password_reset_single_use.1 Rails.fx_sha Rails.fx_users_db
      [{ now := 10, token := "T1", new_password := "longenough", argon2_hash := "H1" },
       { now := 20, token := "T1", new_password := "longenough", argon2_hash := "H2" }]
      ("T1") (by decide)⟩,
   by decide,
   by decide,
   (c5_password_reset_single_use.2.2 Rails.fx_sha Rails.fx_users_db 10 20 ("T1")
     ("longenough") ("longenough") ("H1") ("H2") (by decide) (by decide) (by decide)
     ⟨Rails.fx_token_row, by decide, by decide⟩).1,
   (c5_password_reset_single_use.2.2 Rails.fx_sha Rails.fx_users_db 10 20 ("T1")
     ("longenough") ("longenough") ("H1") ("H2") (by decide) (by decide) (by decide)
     ⟨Rails.fx_token_row, by decide, by decide⟩).2⟩

/-! ## C9 — the strength check precedes the atomic claim -/

/-- C9: a reset call with a password shorter than 8 bytes returns
`BadRequest("Password must be at least 8 characters long")` and leaves
storage — in particular every token's `used_at` — untouched, because the
strength check runs before the claim; the same token still succeeds in a
later call with a valid password. -/
theorem c9_short_password_leaves_token_unclaimed :
    ∀ (sha256 : String → String) (db : UsersDb) (now : Time)
      (token new_password argon2_hash : String),
      new_password.utf8ByteSize < 8 →
      reset_password db now sha256 argon2_hash token new_password
          = (db, .error (.BadRequest "Password must be at least 8 characters long"))
        ∧ (∀ (n₂ : Time) (pw₂ ah₂ : String),
            8 ≤ pw₂.utf8ByteSize →
            (∃ r ∈ db.password_reset_tokens, claimable n₂ (sha256 token) r = true) →
            (reset_password db n₂ sha256 ah₂ token pw₂).2.isOk = true) := by
  intro sha256 db now token new_password argon2_hash hshort
  constructor
  · unfold reset_password
    rw [if_pos hshort]
  · intro n₂ pw₂ ah₂ hpw₂ hclaim
    exact reset_succeeds_of_claimable hpw₂ hclaim

/-- Witness for C9: the short password `abc` is rejected with the token
store untouched, and the same token then succeeds with a valid
password. -/
theorem c9_witness :
    (("abc" : String).utf8ByteSize < 8
      ∧ reset_password Rails.fx_users_db 10 Rails.fx_sha ("H1") ("T1") ("abc")
        = (Rails.fx_users_db, .error (.BadRequest "Password must be at least 8 characters long")))
    ∧ ((8 : Nat) ≤ ("longenough" : String).utf8ByteSize
      ∧ (reset_password Rails.fx_users_db 20 Rails.fx_sha ("H2") ("T1")
          ("longenough")).2.isOk = true) :=
  ⟨⟨by decide,
    (c9_short_password_leaves_token_unclaimed Rails.fx_sha Rails.fx_users_db 10 ("T1") ("abc")
      ("H1") (by decide)).1⟩,
   by decide,
   (c9_short_password_leaves_token_unclaimed Rails.fx_sha Rails.fx_users_db 10 ("T1") ("abc")
      ("H1") (by decide)).2 20 ("longenough") ("H2") (by decide)
     ⟨Rails.fx_token_row, by decide, by decide⟩⟩

/-! ## C8 — the bearer path requires the environment header and never
reads the token's env claim -/

/-- Counterexample to C8: a valid bearer token whose claims carry an
embedded `env` value, sent without any environment header, is rejected
with `BadRequest("Missing X-Environment-Id header")` — the `env` claim is
not used as a fallback. -/
theorem c8_counterexample_no_env_claim_fallback :
    from_request_parts Rails.fx_auth_db 50 Rails.fx_parse_uuid (fun s => s)
        Rails.fx_decode_jwt Rails.fx_bearer_headers_no_env
      = .error (.BadRequest ("Missing X-Environment-Id header"))
    ∧ Rails.fx_decode_jwt ("tok")
      = some { sub := "2", exp := 99, env := some "sandbox" } := by
  exact ⟨rfl, rfl⟩

/-- C8 (amended): in the Bearer path the `X-Environment-Id` header is
required — its absence yields `BadRequest` regardless of the bearer's
claims; the decoded claims' `env` field is never consulted (two decoders
agreeing on everything but `env` produce identical results); and on
success the resolved `environment_id` is exactly the parsed header
value. -/
theorem c8_environment_header_required_env_claim_unused :
    (∀ (db : AuthDb) (now : Time) (parse_uuid : String → Option Uuid)
        (hash_api_key : String → String) (decode_jwt : String → Option JwtClaims)
        (headers : RequestHeaders),
        (headers.x_api_key.map trim_string).filter (fun s => !(s == "")) = none →
        (headers.x_environment_id.map trim_string).filter (fun s => !(s == "")) = none →
        from_request_parts db now parse_uuid hash_api_key decode_jwt headers
          = .error (.BadRequest ("Missing " ++ ENVIRONMENT_ID_HEADER ++ " header")))
      ∧ (∀ (db : AuthDb) (now : Time) (parse_uuid : String → Option Uuid)
            (hash_api_key : String → String)
            (decode_jwt decode_jwt' : String → Option JwtClaims)
            (headers : RequestHeaders) (raw auth_header : String)
            (claims claims' : JwtClaims),
          (headers.x_api_key.map trim_string).filter (fun s => !(s == "")) = none →
          (headers.x_environment_id.map trim_string).filter (fun s => !(s == "")) = some raw →
          headers.authorization = some auth_header →
          decode_jwt (String.mk (auth_header.data.drop 7)) = some claims →
          decode_jwt' (String.mk (auth_header.data.drop 7)) = some claims' →
          claims'.sub = claims.sub →
          from_request_parts db now parse_uuid hash_api_key decode_jwt headers
            = from_request_parts db now parse_uuid hash_api_key decode_jwt' headers)
      ∧ (∀ (db : AuthDb) (now : Time) (parse_uuid : String → Option Uuid)
            (hash_api_key : String → String) (decode_jwt : String → Option JwtClaims)
            (headers : RequestHeaders) (raw : String) (env_id : Uuid)
            (ctx : AuthContext) (db' : AuthDb),
          (headers.x_api_key.map trim_string).filter (fun s => !(s == "")) = none →
          (headers.x_environment_id.map trim_string).filter (fun s => !(s == "")) = some raw →
          parse_uuid raw = some env_id →
          from_request_parts db now parse_uuid hash_api_key decode_jwt headers
            = .ok (ctx, db') →
          ctx.environment_id = env_id) := by
  refine ⟨?_, ?_, ?_⟩
  · intro db now parse_uuid hash_api_key decode_jwt headers hapi henvid
    unfold from_request_parts
    simp only [henvid, hapi]
  · intro db now parse_uuid hash_api_key decode_jwt decode_jwt' headers raw auth_header
      claims claims' hapi henvid hauth hdec hdec' hsub
    unfold from_request_parts
    simp only [henvid, hapi, hauth]
    cases hpu : parse_uuid raw with
    | none => rfl
    | some env_id =>
      cases hpre : starts_with ("Bearer ").data auth_header.data with
      | false => simp only [hpre]; rfl
      | true =>
        simp only [hpre, hdec, hdec', hsub]
  · intro db now parse_uuid hash_api_key decode_jwt headers raw env_id ctx db'
      hapi henvid hpu h
    unfold from_request_parts at h
    simp only [henvid, hapi, hpu] at h
    split at h
    · simp at h
    · split at h
      · simp at h
      · split at h
        · simp at h
        · split at h
          · simp at h
          · split at h
            · simp at h
            · injection h with h2
              injection h2 with ha hb
              rw [← ha]

/-- Witness for C8 at the fixture store: with the header set to
environment 4 the request resolves to environment 4; the same bearer
with a decoder whose claims carry a different `env` gives the same
result; and without the header the request is rejected. -/
theorem c8_witness :
    ((Rails.fx_bearer_headers_no_env.x_api_key.map trim_string).filter
        (fun s => !(s == "")) = none
      ∧ (Rails.fx_bearer_headers_no_env.x_environment_id.map trim_string).filter
        (fun s => !(s == "")) = none
      ∧ from_request_parts Rails.fx_auth_db 50 Rails.fx_parse_uuid (fun s => s)
          Rails.fx_decode_jwt Rails.fx_bearer_headers_no_env
        = .error (.BadRequest ("Missing " ++ ENVIRONMENT_ID_HEADER ++ " header")))
    ∧ from_request_parts Rails.fx_auth_db 50 Rails.fx_parse_uuid (fun s => s)
        Rails.fx_decode_jwt Rails.fx_bearer_headers_env4
      = from_request_parts Rails.fx_auth_db 50 Rails.fx_parse_uuid (fun s => s)
        (fun s => if s == "tok" then some { sub := "2", exp := 99, env := some "production" }
          else none)
        Rails.fx_bearer_headers_env4 :=
  ⟨⟨by decide, by decide,
    c8_environment_header_required_env_claim_unused.1 Rails.fx_auth_db 50 Rails.fx_parse_uuid
      (fun s => s) Rails.fx_decode_jwt Rails.fx_bearer_headers_no_env (by decide) (by decide)⟩,
   c8_environment_header_required_env_claim_unused.2.1 Rails.fx_auth_db 50 Rails.fx_parse_uuid
     (fun s => s) Rails.fx_decode_jwt
     (fun s => if s == "tok" then some { sub := "2", exp := 99, env := some "production" }
       else none)
     Rails.fx_bearer_headers_env4 ("4") ("Bearer tok")
     { sub := "2", exp := 99, env := some "sandbox" }
     { sub := "2", exp := 99, env := some "production" }
     (by decide) (by decide) rfl (by decide) (by decide) rfl⟩

/-! ## C10 — login verifies against the first looked-up row -/

theorem find?_scrub_hash (rows : List Users.UserRow) (h' : String) (sel : Rails.Uuid) :
    ((rows.map (fun r => { r with password_hash := h' })).find?
        (fun row => row.status == "active" && row.environment_id == sel)).map
        (fun row => row.id)
      = (rows.find? (fun row => row.status == "active" && row.environment_id == sel)).map
        (fun row => row.id) := by
  induction rows with
  | nil => rfl
  | cons a rest ih =>
    by_cases hp : (a.status == "active" && a.environment_id == sel) = true
    · simp [hp]
    · simp only [Bool.not_eq_true] at hp
      simpa [hp] using ih

/-- C10: login verifies the submitted password against the FIRST row of
the user lookup only — if that hash does not verify the login is
`Unauthorized` no matter the other rows; replacing every other row's
`password_hash` never changes the outcome; and when the first row's hash
verifies and an active row exists in the selected environment, the
session is issued for that row (its own hash unchecked). -/
theorem c10_login_checks_first_row_hash :
    (∀ (first : UserRow) (rest : List UserRow) (db_environments : List EnvironmentRow)
        (verify_password : String → String → Bool) (password : String)
        (requested_env_id : Option Uuid),
        verify_password password first.password_hash = false →
        login_rows (first :: rest) db_environments verify_password password requested_env_id
          = .error .Unauthorized)
      ∧ (∀ (first : UserRow) (rest : List UserRow) (db_environments : List EnvironmentRow)
            (verify_password : String → String → Bool) (password h' : String)
            (requested_env_id : Option Uuid),
          login_rows (first :: rest.map (fun r => { r with password_hash := h' }))
              db_environments verify_password password requested_env_id
            = login_rows (first :: rest) db_environments verify_password password
              requested_env_id)
      ∧ (∀ (first : UserRow) (rest : List UserRow) (db_environments : List EnvironmentRow)
            (verify_password : String → String → Bool) (password : String)
            (requested_env_id : Option Uuid) (row : UserRow),
          verify_password password first.password_hash = true →
          db_environments.filter (fun e =>
            e.business_id == first.business_id && e.status == "active") ≠ [] →
          (first :: rest).find? (fun r => r.status == "active"
            && r.environment_id
              == select_environment (available_envs_of db_environments first.business_id)
                requested_env_id) = some row →
          login_rows (first :: rest) db_environments verify_password password
              requested_env_id
            = .ok (row.id,
                select_environment (available_envs_of db_environments first.business_id)
                  requested_env_id,
                available_envs_of db_environments first.business_id)) := by
  refine ⟨?_, ?_, ?_⟩
  · intro first rest db_environments verify_password password requested_env_id hv
    simp [login_rows, hv]
  · intro first rest db_environments verify_password password h' requested_env_id
    simp only [login_rows]
    cases hv : verify_password password first.password_hash with
    | false =>
      rw [if_pos (show (!false) = true by simp),
        if_pos (show (!false) = true by simp)]
    | true =>
      rw [if_neg (show ¬((!true) = true) by simp),
        if_neg (show ¬((!true) = true) by simp)]
      cases hemp : (db_environments.filter (fun e =>
          e.business_id == first.business_id && e.status == "active")).isEmpty with
      | true => rfl
      | false =>
        rw [if_neg (show ¬(false = true) by simp),
          if_neg (show ¬(false = true) by simp)]
        rw [List.find?_cons, List.find?_cons]
        cases hp : (first.status == "active" && first.environment_id
            == select_environment
              (sort_envs_by_type ((db_environments.filter (fun e =>
                e.business_id == first.business_id && e.status == "active")).map
                  (fun e => EnvironmentInfo.mk e.id e.type)))
              requested_env_id) with
        | true => rfl
        | false =>
          have hfind := find?_scrub_hash rest h'
            (select_environment
              (sort_envs_by_type ((db_environments.filter (fun e =>
                e.business_id == first.business_id && e.status == "active")).map
                  (fun e => EnvironmentInfo.mk e.id e.type)))
              requested_env_id)
          cases hf1 : rest.find? (fun r => r.status == "active" && r.environment_id
              == select_environment
                (sort_envs_by_type ((db_environments.filter (fun e =>
                  e.business_id == first.business_id && e.status == "active")).map
                    (fun e => EnvironmentInfo.mk e.id e.type)))
                requested_env_id) with
          | none =>
            rw [hf1] at hfind
            cases hf2 : (rest.map (fun r => { r with password_hash := h' })).find?
                (fun r => r.status == "active" && r.environment_id
                  == select_environment
                    (sort_envs_by_type ((db_environments.filter (fun e =>
                      e.business_id == first.business_id && e.status == "active")).map
                        (fun e => EnvironmentInfo.mk e.id e.type)))
                    requested_env_id) with
            | none => rfl
            | some r =>
              rw [hf2] at hfind
              simp at hfind
          | some r =>
            rw [hf1] at hfind
            cases hf2 : (rest.map (fun r => { r with password_hash := h' })).find?
                (fun r => r.status == "active" && r.environment_id
                  == select_environment
                    (sort_envs_by_type ((db_environments.filter (fun e =>
                      e.business_id == first.business_id && e.status == "active")).map
                        (fun e => EnvironmentInfo.mk e.id e.type)))
                    requested_env_id) with
            | none =>
              rw [hf2] at hfind
              simp at hfind
            | some r' =>
              rw [hf2] at hfind
              simp only [Option.map_some'] at hfind
              simp only [Option.some.injEq] at hfind
              dsimp only
              rw [hfind]
  · intro first rest db_environments verify_password password requested_env_id row
      hv hne hfind
    simp only [login_rows]
    rw [if_neg (by simp [hv])]
    cases hemp : (db_environments.filter (fun e =>
        e.business_id == first.business_id && e.status == "active")).isEmpty with
    | true =>
      exact absurd (List.isEmpty_iff.mp hemp) hne
    | false =>
      rw [if_neg (by simp)]
      have hgoal : sort_envs_by_type ((db_environments.filter (fun e =>
          e.business_id == first.business_id && e.status == "active")).map
            (fun e => EnvironmentInfo.mk e.id e.type))
          = available_envs_of db_environments first.business_id := rfl
      rw [hgoal, hfind]

/-- Witness for C10: two rows share the email across environments 4 and
5; the verifier accepts only the first row's hash `H1`; requesting
environment 5 issues the session for row 11 although its own hash `H2`
does not verify. -/
theorem c10_witness :
    (Rails.fx_verify ("pw")
        (({ id := 10, business_id := 3, environment_id := 4, email := "alice@acme.com",
            password_hash := "H1", status := "active",
            updated_at := 0 } : UserRow)).password_hash = true
      ∧ Rails.fx_verify ("pw") ("H2") = false)
    ∧ login_rows Rails.fx_login_rows Rails.fx_auth_db.environments Rails.fx_verify ("pw")
        (some 5)
      = .ok (11,
          select_environment
            (available_envs_of Rails.fx_auth_db.environments 3) (some 5),
          available_envs_of Rails.fx_auth_db.environments 3) :=
  ⟨⟨by decide, by decide⟩,
   c10_login_checks_first_row_hash.2.2
     { id := 10, business_id := 3, environment_id := 4, email := "alice@acme.com",
       password_hash := "H1", status := "active", updated_at := 0 }
     [{ id := 11, business_id := 3, environment_id := 5, email := "alice@acme.com",
        password_hash := "H2", status := "active", updated_at := 0 }]
     Rails.fx_auth_db.environments Rails.fx_verify ("pw") (some 5)
     { id := 11, business_id := 3, environment_id := 5, email := "alice@acme.com",
       password_hash := "H2", status := "active", updated_at := 0 }
     (by decide) (by decide) (by decide)⟩

end Users

end Rails
